import Mathlib

/-! Loan lifecycle engine of `backend_agile`: embedding and verified properties.

Shallow embedding of the logic of `src/routes/loans.js` and `src/services/pdf.js`.

Conventions of the embedding.
* JavaScript strings are `String`; persisted statuses stay strings, as in the routes.
* A JavaScript `Date` (and a dayjs value) is its epoch time in milliseconds, an `Int`.
* `America/Lima` is UTC-05:00 all year (no daylight saving), so a civil day in Lima starts
  at 05:00 UTC.
* Numbers read from the request body and PDF coordinates are exact rationals (`ℚ`);
  comparisons against the literals of the source are the comparisons of the source.
* The column geometry of the PDF table is computed as the source computes it, in IEEE 754
  doubles: a double is the rational it denotes and every `+` and `-` rounds its exact result
  with `fl` (round to nearest, ties to even, 53-bit mantissa, gradual underflow).
* The database is an explicit state; a Prisma transaction is one function on that state.
-/

namespace LoanEngine

/-! ## Data model -/

/-- A row of `paymentSchedule` (the fields the routes read or write). -/
structure Schedule where
  id : Int
  loanId : Int
  installmentNumber : Nat
  dueDate : Int
  status : String
  paidAt : Option Int
deriving DecidableEq, Repr

/-- A row of `loan` (the fields the routes read or write). -/
structure Loan where
  id : Int
  clientId : Int
  status : String
deriving DecidableEq, Repr

/-- One group returned by `paymentSchedule.groupBy({ by: ['status'], _count: { _all: true } })`:
`status` and `_count._all`. -/
structure StatusCount where
  status : String
  count : Nat
deriving DecidableEq, Repr

/-! ## LoanStatusAggregator: the recompute of `PATCH /:loanId/schedules/:scheduleId` -/

/-- The value of `counts.find(c => c.status === st)?._count._all || 0`. -/
def countOf (counts : List StatusCount) (st : String) : Nat :=
  match counts.find? (fun c => c.status == st) with
  | some c => if c.count = 0 then 0 else c.count
  | none => 0

/-- The value of `counts.reduce((a, c) => a + c._count._all, 0)`. -/
def totalOf (counts : List StatusCount) : Nat :=
  counts.foldl (fun a c => a + c.count) 0

/-- Lines 216-222 of `loans.js`: the new loan status from the grouped counts. -/
def recomputeLoanStatus (counts : List StatusCount) : String :=
  let total := totalOf counts
  let paidCount := countOf counts "PAGADO"
  let overdueCount := countOf counts "ATRASADO"
  if paidCount = total then "PAGADO"
  else if overdueCount > 0 then "ATRASADO"
  else "ACTIVO"

/-- A deterministic `groupBy` on the status column: one group per distinct status, in order of
first appearance, with the number of rows carrying it. -/
def groupByStatus (statuses : List String) : List StatusCount :=
  statuses.dedup.map (fun st => { status := st, count := statuses.count st })

/-- The list `counts` is a grouping of `statuses` by value: the group keys are pairwise distinct,
each group counts the rows with its key and is non-empty, and every row falls in a group.
The order of the groups is free, as it is for the database. -/
def IsGrouping (counts : List StatusCount) (statuses : List String) : Prop :=
  (counts.map (fun c => c.status)).Nodup ∧
  (∀ c ∈ counts, 0 < c.count ∧ c.count = statuses.count c.status) ∧
  (∀ st ∈ statuses, st ∈ counts.map (fun c => c.status))

instance (counts : List StatusCount) (statuses : List String) :
    Decidable (IsGrouping counts statuses) := by
  unfold IsGrouping; infer_instance

/-! ## Civil dates in `America/Lima` (dayjs with the utc and timezone plugins) -/

/-- Milliseconds in a day. -/
def msPerDay : Int := 86400000

/-- Lima midnight is 05:00 UTC: the offset of the zone, in milliseconds. -/
def limaOffsetMs : Int := 18000000

/-- Number of the civil day in Lima that contains the instant `t` (day 0 starts at
1970-01-01T00:00-05:00). -/
def civilDay (t : Int) : Int := (t - limaOffsetMs) / msPerDay

/-- The value of `dayjs.tz(t, TZ).startOf('day')`: the instant at which the civil day of `t` starts. -/
def startOfDay (t : Int) : Int := civilDay t * msPerDay + limaOffsetMs

/-- The value of `a.isAfter(b)`. -/
def isAfter (a b : Int) : Bool := decide (b < a)

/-- The value of `a.isBefore(b)`. -/
def isBefore (a b : Int) : Bool := decide (a < b)

/-- The value of `a.diff(b, 'day')`: whole days between two instants of the same zone offset,
truncated toward zero. -/
def diffDays (a b : Int) : Int := Int.tdiv (a - b) msPerDay

/-- Signed number of civil days from the day of `a` to the day of `b`. -/
def civilDaysBetween (a b : Int) : Int := civilDay b - civilDay a

/-! ## InstallmentStatusResolver: the `schedules.map` of `GET /loans/:id` -/

/-- One element of the mapped array: `{ ...s, computedStatus, daysOverdue }`. -/
structure ResolvedSchedule where
  schedule : Schedule
  computedStatus : String
  daysOverdue : Int
deriving DecidableEq, Repr

/-- Lines 167-181 of `loans.js`; `nowDate` is the instant `new Date()` of the request. -/
def resolveInstallment (nowDate : Int) (s : Schedule) : ResolvedSchedule :=
  let now := startOfDay nowDate
  let due := startOfDay s.dueDate
  let paidAt : Option Int := match s.paidAt with
    | some p => some (startOfDay p)
    | none => none
  let daysOverdue : Int := match paidAt with
    | some p => if isAfter p due then diffDays p due else 0
    | none => if isAfter now due then diffDays now due else 0
  let computedStatus := s.status
  let computedStatus :=
    if paidAt.isNone && isAfter now due && s.status != "PAGADO" then "ATRASADO" else computedStatus
  let computedStatus := if paidAt.isSome then "PAGADO" else computedStatus
  { schedule := s, computedStatus := computedStatus, daysOverdue := daysOverdue }

/-! ## Requests, responses and the store -/

/-- A value of the JSON request body as JavaScript sees it. -/
inductive JsValue where
  | undefined : JsValue
  | null : JsValue
  | bool : Bool → JsValue
  | num : ℚ → JsValue
  | str : String → JsValue
deriving DecidableEq, Repr

/-- JavaScript truthiness of a body value. -/
def JsValue.truthy : JsValue → Bool
  | .undefined => false
  | .null => false
  | .bool b => b
  | .num q => decide (q ≠ 0)
  | .str s => decide (s ≠ "")

/-- The tables the routes touch: ids of the `client` rows, the `loan` rows, the
`paymentSchedule` rows. -/
structure Db where
  clients : List Int
  loans : List Loan
  schedules : List Schedule
deriving DecidableEq, Repr

/-- What a route answers. -/
inductive Response where
  /-- The request was stopped by `handleValidation` before the handler ran. -/
  | validation : Response
  /-- The value of `res.status(code).json({ error: message })`. -/
  | error : Nat → String → Response
  /-- A success answer with its HTTP status. -/
  | ok : Nat → Response
  /-- An exception handed to `next(e)`. -/
  | failure : Response
deriving DecidableEq, Repr

/-! ## LoanCreationPolicy: `POST /loans` -/

/-- The body and user of a creation request. `userId` is `Number(req.user?.sub || req.user?.id)`
(`none` when it is `NaN`); `startDate` is the instant `dayjs.tz(startDate, TZ)`. -/
structure CreateRequest where
  userId : Option Int
  clientId : Int
  principal : ℚ
  interestRate : ℚ
  termCount : Int
  startDate : Int
  declarationAccepted : JsValue
deriving DecidableEq, Repr

/-- The validator chain of the route (lines 86-90) on a typed request: `clientId` and `termCount`
are integers and `startDate` is a date by their types, which leaves `principal > 0`,
`interestRate >= 0` and `6 <= termCount <= 60`. -/
def createValidators (req : CreateRequest) : Bool :=
  decide (0 < req.principal) && decide (0 ≤ req.interestRate) &&
    decide (6 ≤ req.termCount) && decide (req.termCount ≤ 60)

/-- Modelled from the spec: `handleValidation` of `src/middleware/validate.js`, which is not among
the sources. It lets the request through to the handler when every validator of the chain
passed and answers with a validation error otherwise. -/
def handleValidation (passed : Bool) (handler : Db × Response) (db : Db) : Db × Response :=
  if passed then handler else (db, Response.validation)

/-- The value of `!userId`. -/
def userIdFalsy : Option Int → Bool
  | none => true
  | some n => decide (n = 0)

/-- The handler of `POST /loans` (lines 92-153). `nowDate` is `new Date()`; `newLoanId` is the id
the store gives the created loan and `rows` the schedule rows created from the output of
`generateSchedule` (`services/schedule.js` is not among the sources). -/
def createLoanHandler (nowDate : Int) (newLoanId : Int) (rows : List Schedule)
    (req : CreateRequest) (db : Db) : Db × Response :=
  if userIdFalsy req.userId then (db, Response.error 401 "Usuario no autenticado")
  else
    let start := startOfDay req.startDate
    let today := startOfDay nowDate
    if isBefore start today then
      (db, Response.error 400 "La fecha del préstamo no puede ser pasada")
    else if req.principal < 300 then (db, Response.error 400 "El monto mínimo es S/ 300.")
    else if req.principal > 200000 then (db, Response.error 400 "El monto máximo es S/ 200,000.")
    else if req.interestRate < 0.10 then
      (db, Response.error 400 "La tasa mínima es 10% (0.10).")
    else if req.principal ≥ 5350 ∧ req.declarationAccepted ≠ JsValue.bool true then
      (db, Response.error 400
        "Para montos desde S/ 5,350 debe descargar y aceptar la Declaración Jurada.")
    else
      match db.clients.find? (fun c => c == req.clientId) with
      | none => (db, Response.error 404 "Cliente no encontrado")
      | some client =>
        match db.loans.find? (fun l => l.clientId == client && l.status != "PAGADO") with
        | some _ => (db, Response.error 400 "El cliente ya tiene un préstamo activo.")
        | none =>
          ({ db with
              loans := db.loans ++ [{ id := newLoanId, clientId := client, status := "ACTIVO" }]
              schedules := db.schedules ++ rows.map (fun r => { r with loanId := newLoanId }) },
            Response.ok 201)

/-- The route `POST /loans`: validator chain, `handleValidation`, handler. -/
def createLoan (nowDate : Int) (newLoanId : Int) (rows : List Schedule)
    (req : CreateRequest) (db : Db) : Db × Response :=
  handleValidation (createValidators req) (createLoanHandler nowDate newLoanId rows req db) db

/-- The store after a successful creation. -/
def persistLoan (newLoanId : Int) (rows : List Schedule) (req : CreateRequest) (db : Db) : Db :=
  { db with
      loans := db.loans ++ [{ id := newLoanId, clientId := req.clientId, status := "ACTIVO" }]
      schedules := db.schedules ++ rows.map (fun r => { r with loanId := newLoanId }) }

/-- The seven checks in the order in which the specification lists them, each with the answer
the route gives for it: the answer of the first violated one, `none` when all hold. -/
def specOrderError (nowDate : Int) (req : CreateRequest) (db : Db) : Option Response :=
  if req.principal < 300 then
    if 0 < req.principal then some (Response.error 400 "El monto mínimo es S/ 300.")
    else some Response.validation
  else if req.principal > 200000 then some (Response.error 400 "El monto máximo es S/ 200,000.")
  else if req.interestRate < 0.10 then
    if 0 ≤ req.interestRate then some (Response.error 400 "La tasa mínima es 10% (0.10).")
    else some Response.validation
  else if req.termCount < 6 ∨ 60 < req.termCount then some Response.validation
  else if civilDay req.startDate < civilDay nowDate then
    some (Response.error 400 "La fecha del préstamo no puede ser pasada")
  else if req.principal ≥ 5350 ∧ req.declarationAccepted ≠ JsValue.bool true then
    some (Response.error 400
      "Para montos desde S/ 5,350 debe descargar y aceptar la Declaración Jurada.")
  else if req.clientId ∉ db.clients then some (Response.error 404 "Cliente no encontrado")
  else if ∃ l ∈ db.loans, l.clientId = req.clientId ∧ l.status ≠ "PAGADO" then
    some (Response.error 400 "El cliente ya tiene un préstamo activo.")
  else none

/-! ## Installment toggle: `PATCH /loans/:loanId/schedules/:scheduleId` -/

/-- The parameters and body of a toggle request. `paidAt` is the instant `new Date(paidAt)` when
the body carries a `paidAt` string, `none` when it does not. -/
structure ToggleRequest where
  loanId : Int
  scheduleId : Int
  paid : JsValue
  paidAt : Option Int
deriving DecidableEq, Repr

/-- The `data` object of the update (lines 204-206): `status` and `paidAt`. -/
structure ToggleData where
  status : String
  paidAt : Option Int
deriving DecidableEq, Repr

/-- Lines 204-206 of `loans.js`; `nowDate` is `new Date()`. -/
def toggleData (nowDate : Int) (paid : JsValue) (paidAt : Option Int) : ToggleData :=
  if paid.truthy then
    { status := "PAGADO"
      paidAt := some (match paidAt with
        | some t => t
        | none => nowDate) }
  else { status := "PENDIENTE", paidAt := none }

/-- The effect of `paymentSchedule.update({ where: { id }, data })` on the table. -/
def updateSchedule (schedules : List Schedule) (id : Int) (data : ToggleData) : List Schedule :=
  schedules.map (fun s => if s.id = id then { s with status := data.status, paidAt := data.paidAt } else s)

/-- The effect of `loan.update({ where: { id }, data: { status } })` on the table. -/
def updateLoanStatus (loans : List Loan) (id : Int) (status : String) : List Loan :=
  loans.map (fun l => if l.id = id then { l with status := status } else l)

/-- The statuses of the rows selected by `where: { loanId }`. -/
def statusesOfLoan (schedules : List Schedule) (loanId : Int) : List String :=
  (schedules.filter (fun s => s.loanId == loanId)).map (fun s => s.status)

/-- The validator of `body('paid').isBoolean()`. -/
def isBooleanValue : JsValue → Bool
  | .bool _ => true
  | .num q => decide (q = 0 ∨ q = 1)
  | .str s => decide (s = "true" ∨ s = "false" ∨ s = "1" ∨ s = "0")
  | _ => false

/-- The handler of the toggle route (lines 196-228). The transaction either commits both updates
or, when `loan.update` finds no loan and throws, leaves the store as it was. -/
def toggleHandler (nowDate : Int) (req : ToggleRequest) (db : Db) : Db × Response :=
  match db.schedules.find? (fun s => s.id == req.scheduleId) with
  | none => (db, Response.error 404 "Cuota no encontrada")
  | some schedule =>
    if schedule.loanId ≠ req.loanId then (db, Response.error 404 "Cuota no encontrada")
    else
      let data := toggleData nowDate req.paid req.paidAt
      let schedules := updateSchedule db.schedules req.scheduleId data
      let counts := groupByStatus (statusesOfLoan schedules req.loanId)
      let newStatus := recomputeLoanStatus counts
      if db.loans.any (fun l => l.id == req.loanId) then
        ({ db with schedules := schedules
                   loans := updateLoanStatus db.loans req.loanId newStatus }, Response.ok 200)
      else (db, Response.failure)

/-- The toggle route: validator chain, `handleValidation`, handler. -/
def toggleInstallment (nowDate : Int) (req : ToggleRequest) (db : Db) : Db × Response :=
  handleValidation (isBooleanValue req.paid) (toggleHandler nowDate req db) db

/-- The stored-row invariant: `paidAt` is non-null iff the persisted status is `PAGADO`. -/
def PaidAtIffPaid (s : Schedule) : Prop := s.paidAt.isSome = true ↔ s.status = "PAGADO"

instance (s : Schedule) : Decidable (PaidAtIffPaid s) := by
  unfold PaidAtIffPaid; infer_instance

/-! ## ScheduleTableRenderer: `buildSchedulePdf` -/

/-- The geometry of `doc.page`: size and margins. -/
structure Page where
  width : ℚ
  height : ℚ
  marginTop : ℚ
  marginBottom : ℚ
  marginLeft : ℚ
  marginRight : ℚ
deriving DecidableEq, Repr

/-- Exponent of the unit in the last place of the double nearest to `x`: 52 binary places below
the leading bit of `x`, and never below the subnormal exponent -1074. -/
def quantum (x : ℚ) : ℤ := max (Int.log 2 |x| - 52) (-1074)

/-- The integer nearest to `y`, the even one when `y` is halfway between two integers. -/
def roundHalfEven (y : ℚ) : ℤ :=
  if y - ⌊y⌋ < 1 / 2 then ⌊y⌋
  else if 1 / 2 < y - ⌊y⌋ then ⌊y⌋ + 1
  else if ⌊y⌋ % 2 = 0 then ⌊y⌋ else ⌊y⌋ + 1

/-- The double nearest to the rational `x`, as a rational: what a JavaScript number holds after
an arithmetic operation whose exact result is `x`, and what a decimal literal denotes. Overflow
to `Infinity` is not represented: the value is that of JavaScript whenever it is below
`2 ^ 1024` in magnitude. -/
def fl (x : ℚ) : ℚ := (roundHalfEven (x / 2 ^ quantum x) : ℚ) * 2 ^ quantum x

/-- A4 with margin 40, the document of `GET /:id/schedule.pdf` and of `createPdfDocument`: the
PDF library gives A4 the size `[595.28, 841.89]`. -/
def a4Margin40 : Page :=
  { width := fl 595.28, height := fl 841.89, marginTop := 40, marginBottom := 40,
    marginLeft := 40, marginRight := 40 }

/-- Line 5 of `pdf.js`: `doc.page.width - doc.page.margins.left - doc.page.margins.right`, two
subtractions of doubles. -/
def contentWidth (pg : Page) : ℚ := fl (fl (pg.width - pg.marginLeft) - pg.marginRight)

/-- The value of `50 + 90 + 95 + 90 + 90` on line 24, added from the left. -/
def fixedWidths : ℚ := fl (fl (fl (fl (50 + 90) + 95) + 90) + 90)

/-- One entry of `columns`. -/
structure Column where
  key : String
  title : String
  width : ℚ
  align : String
deriving DecidableEq, Repr

/-- Lines 18-25 of `pdf.js`. -/
def columns (pg : Page) : List Column :=
  [ { key := "n", title := "Cuota", width := 50, align := "left" },
    { key := "fecha", title := "Fecha", width := 90, align := "left" },
    { key := "cuota", title := "Cuota (S/)", width := 95, align := "right" },
    { key := "interes", title := "Interés", width := 90, align := "right" },
    { key := "capital", title := "Capital", width := 90, align := "right" },
    { key := "saldo", title := "Saldo", width := fl (contentWidth pg - fixedWidths),
      align := "right" } ]

/-- The value of `x` after the `forEach` of `drawHeader` and `drawRow`: it starts at
`startX = doc.page.margins.left` and each `x += col.width` adds one column width. -/
def rightEdge (pg : Page) : ℚ :=
  (columns pg).foldl (fun x col => fl (x + col.width)) pg.marginLeft

/-- The six widths added from the left in doubles, starting from 0. -/
def widthSum (pg : Page) : ℚ :=
  (columns pg).foldl (fun a col => fl (a + col.width)) 0

/-- The value of `startX + contentWidth` on line 39: the right end of the rule under the column
titles. -/
def ruleEnd (pg : Page) : ℚ := fl (pg.marginLeft + contentWidth pg)

/-- Line 27 of `pdf.js`. -/
def rowHeight : ℚ := 18

/-- Line 62 of `pdf.js`. -/
def bottomY (pg : Page) : ℚ := pg.height - pg.marginBottom

/-- What the renderer puts on the document, in order. Pages are numbered from 0. -/
inductive DrawOp (α : Type) where
  /-- The title, client, loan, total and start-date lines (lines 7-15). -/
  | headerBlock : Nat → DrawOp α
  /-- The call `doc.addPage()`. -/
  | addPage : DrawOp α
  /-- The column titles and the rule under them, drawn by `drawHeader` at cursor `y`. -/
  | columnHeader : Nat → ℚ → DrawOp α
  /-- The six cells of one installment, drawn by `drawRow` at cursor `y`. -/
  | row : Nat → ℚ → α → DrawOp α
deriving DecidableEq, Repr

/-- The state of the renderer: current page, the cursor `y`, what was drawn so far. -/
structure Cursor (α : Type) where
  page : Nat
  y : ℚ
  ops : List (DrawOp α)

/-- Lines 31-42 of `pdf.js`. -/
def drawHeader {α : Type} (c : Cursor α) : Cursor α :=
  { c with ops := c.ops ++ [DrawOp.columnHeader c.page c.y], y := c.y + (rowHeight - 6) + 6 }

/-- Lines 44-60 of `pdf.js`. -/
def drawRow {α : Type} (c : Cursor α) (r : α) : Cursor α :=
  { c with ops := c.ops ++ [DrawOp.row c.page c.y r], y := c.y + rowHeight }

/-- The body of the `for` loop (lines 65-70). -/
def loopStep {α : Type} (pg : Page) (c : Cursor α) (r : α) : Cursor α :=
  let c :=
    if c.y + rowHeight > bottomY pg then
      drawHeader { page := c.page + 1, y := pg.marginTop, ops := c.ops ++ [DrawOp.addPage] }
    else c
  drawRow c r

/-- The state when the loop starts: the header block is on page 0, `y = doc.y + 6` where `docY`
is `doc.y` after the header block, and the column header was drawn once (line 63). -/
def initialCursor {α : Type} (docY : ℚ) : Cursor α :=
  drawHeader { page := 0, y := docY + 6, ops := [DrawOp.headerBlock 0] }

/-- The state after the loop ran over `schedule`. -/
def renderCursor {α : Type} (pg : Page) (docY : ℚ) (schedule : List α) : Cursor α :=
  schedule.foldl (loopStep pg) (initialCursor docY)

/-- The function `buildSchedulePdf` as the sequence of what it draws. -/
def buildSchedulePdf {α : Type} (pg : Page) (docY : ℚ) (schedule : List α) : List (DrawOp α) :=
  (renderCursor pg docY schedule).ops

/-- The installment of a `row` operation. -/
def DrawOp.rowOf {α : Type} : DrawOp α → Option α
  | .row _ _ r => some r
  | _ => none

/-- Whether an operation is the header block. -/
def DrawOp.isHeaderBlock {α : Type} : DrawOp α → Bool
  | .headerBlock _ => true
  | _ => false

/-! ## Sample data used to instantiate the theorems -/

/-- A store with one client (id 1) and no loans. -/
def sampleDb : Db := { clients := [1], loans := [], schedules := [] }

/-- A creation request for client 1 with the given principal, start instant and declaration flag;
rate 20%, 12 installments. -/
def sampleRequest (principal : ℚ) (startDate : Int) (declaration : JsValue) : CreateRequest :=
  { userId := some 7, clientId := 1, principal := principal, interestRate := 0.2, termCount := 12,
    startDate := startDate, declarationAccepted := declaration }

/-- A store with client 1, its loan 10 (status `ATRASADO`) and the two installments of the
loan: the first paid, the second pending and due on civil day 40. -/
def sampleLoanDb : Db :=
  { clients := [1]
    loans := [{ id := 10, clientId := 1, status := "ATRASADO" }]
    schedules :=
      [ { id := 1, loanId := 10, installmentNumber := 1, dueDate := 882000000,
          status := "PAGADO", paidAt := some 795600000 },
        { id := 2, loanId := 10, installmentNumber := 2, dueDate := 3474000000,
          status := "PENDIENTE", paidAt := none } ] }

/-- The request that marks installment 2 of loan 10 as paid, with `paidAt` equal to its due
date. -/
def samplePayLast : ToggleRequest :=
  { loanId := 10, scheduleId := 2, paid := JsValue.bool true, paidAt := some 3474000000 }

/-- A5 with margin 40, another page of the PDF library: 419.53 by 595.28 points. -/
def a5Margin40 : Page :=
  { width := fl 419.53, height := fl 595.28, marginTop := 40, marginBottom := 40,
    marginLeft := 40, marginRight := 40 }

/-- What one turn of the loop draws, as the pagination rule words it: when the cursor plus one
row height exceeds the bottom boundary, a new page, the column header at the top margin and the
row under it; otherwise the row at the cursor. -/
def stepOps {α : Type} (pg : Page) (c : Cursor α) (r : α) : List (DrawOp α) :=
  if c.y + rowHeight > bottomY pg then
    [DrawOp.addPage, DrawOp.columnHeader (c.page + 1) pg.marginTop,
      DrawOp.row (c.page + 1) (pg.marginTop + rowHeight) r]
  else [DrawOp.row c.page c.y r]

/-- Every `addPage` among the operations is directly followed by the column header at the top
margin of the new page and by a data row under it. -/
def HeaderFollowsAddPage {α : Type} (pg : Page) (ops : List (DrawOp α)) : Prop :=
  ∀ (before after : List (DrawOp α)), ops = before ++ DrawOp.addPage :: after →
    ∃ (p : Nat) (r : α) (rest : List (DrawOp α)),
      after = DrawOp.columnHeader p pg.marginTop ::
        DrawOp.row p (pg.marginTop + rowHeight) r :: rest

/-- A page 120 points high with margin 40: it holds the column header and one row. -/
def tinyPage : Page :=
  { width := 595.28, height := 120, marginTop := 40, marginBottom := 40,
    marginLeft := 40, marginRight := 40 }

/-- A store with client 1 and its loan 10, fully repaid: the loan and both installments are
`PAGADO`. -/
def samplePaidDb : Db :=
  { clients := [1]
    loans := [{ id := 10, clientId := 1, status := "PAGADO" }]
    schedules :=
      [ { id := 1, loanId := 10, installmentNumber := 1, dueDate := 882000000,
          status := "PAGADO", paidAt := some 795600000 },
        { id := 2, loanId := 10, installmentNumber := 2, dueDate := 3474000000,
          status := "PAGADO", paidAt := some 3474000000 } ] }

/-- The request that unmarks installment 2 of loan 10 (`paid: false`). -/
def sampleUnmark : ToggleRequest :=
  { loanId := 10, scheduleId := 2, paid := JsValue.bool false, paidAt := none }

/-! # Theorems -/

/-! ### Helper lemmas for the aggregator -/

theorem totalOf_eq_sum (counts : List StatusCount) :
    totalOf counts = (counts.map (fun c => c.count)).sum := by
  unfold totalOf
  have h : ∀ (l : List StatusCount) (a : Nat),
      l.foldl (fun a c => a + c.count) a = a + (l.map (fun c => c.count)).sum := by
    intro l
    induction l with
    | nil => intro a; simp
    | cons x xs ih => intro a; simp [ih, Nat.add_assoc]
  simpa using h counts 0

theorem sum_count_keys (keys : List String) (hk : keys.Nodup) :
    ∀ statuses : List String, (∀ st ∈ statuses, st ∈ keys) →
      (keys.map (fun k => statuses.count k)).sum = statuses.length := by
  intro statuses
  induction statuses with
  | nil => intro _; simp
  | cons s l ih =>
    intro hmem
    have hl : ∀ st ∈ l, st ∈ keys := fun st hst => hmem st (List.mem_cons_of_mem _ hst)
    have hs : s ∈ keys := hmem s (List.mem_cons_self _ _)
    have hsplit : (keys.map (fun k => (s :: l).count k)).sum
        = (keys.map (fun k => l.count k)).sum + keys.count s := by
      clear ih hmem hl hs hk
      induction keys with
      | nil => simp
      | cons k ks ihk =>
        rw [List.map_cons, List.sum_cons, ihk, List.map_cons, List.sum_cons]
        have h1 : (s :: l).count k = l.count k + (if s = k then 1 else 0) := by
          rw [List.count_cons]; simp
        have h2 : (k :: ks).count s = ks.count s + (if s = k then 1 else 0) := by
          rw [List.count_cons]
          by_cases hsk : s = k
          · subst hsk; simp
          · have hks : ¬ k = s := fun h => hsk h.symm
            simp [hsk, hks]
        rw [h1, h2]; omega
    rw [hsplit, ih hl, List.count_eq_one_of_mem hk hs]
    simp

theorem totalOf_grouping {counts : List StatusCount} {statuses : List String}
    (h : IsGrouping counts statuses) : totalOf counts = statuses.length := by
  obtain ⟨hnd, hcnt, hcov⟩ := h
  rw [totalOf_eq_sum]
  have h1 : counts.map (fun c => c.count)
      = (counts.map (fun c => c.status)).map (fun k => statuses.count k) := by
    rw [List.map_map]
    apply List.map_congr_left
    intro c hc
    exact (hcnt c hc).2
  rw [h1]
  exact sum_count_keys _ hnd statuses hcov

theorem countOf_grouping {counts : List StatusCount} {statuses : List String}
    (h : IsGrouping counts statuses) (st : String) : countOf counts st = statuses.count st := by
  obtain ⟨_, hcnt, hcov⟩ := h
  unfold countOf
  cases hf : counts.find? (fun c => c.status == st) with
  | none =>
    have hnot : st ∉ statuses := by
      intro hin
      have := hcov st hin
      rw [List.mem_map] at this
      obtain ⟨c, hc, hcs⟩ := this
      have := List.find?_eq_none.mp hf c hc
      simp [hcs] at this
    simp [List.count_eq_zero_of_not_mem hnot]
  | some c =>
    have hc : c ∈ counts := List.mem_of_find?_eq_some hf
    have hst : c.status = st := by
      have := List.find?_some hf
      simpa using this
    have := hcnt c hc
    simp only
    rw [← hst, ← this.2]
    split <;> omega

theorem recomputeLoanStatus_grouping {counts : List StatusCount} {statuses : List String}
    (h : IsGrouping counts statuses) :
    recomputeLoanStatus counts =
      (if statuses.count "PAGADO" = statuses.length then "PAGADO"
       else if 0 < statuses.count "ATRASADO" then "ATRASADO" else "ACTIVO") := by
  unfold recomputeLoanStatus
  simp only [totalOf_grouping h, countOf_grouping h, gt_iff_lt]

theorem groupByStatus_isGrouping (statuses : List String) :
    IsGrouping (groupByStatus statuses) statuses := by
  unfold IsGrouping groupByStatus
  refine ⟨?_, ?_, ?_⟩
  · rw [List.map_map]
    have : ((fun c : StatusCount => c.status) ∘
        fun st => ({ status := st, count := statuses.count st } : StatusCount)) = id := by
      funext st; rfl
    rw [this, List.map_id]
    exact List.nodup_dedup statuses
  · intro c hc
    rw [List.mem_map] at hc
    obtain ⟨st, hst, rfl⟩ := hc
    exact ⟨List.count_pos_iff.mpr (List.mem_dedup.mp hst), rfl⟩
  · intro st hst
    rw [List.mem_map]
    exact ⟨{ status := st, count := statuses.count st },
      List.mem_map.mpr ⟨st, List.mem_dedup.mpr hst, rfl⟩, rfl⟩

/-! ### C1 -/

/-- C1: for every grouping `counts` of the persisted installment statuses of a loan, the
recomputed loan status is `PAGADO` when the number of `PAGADO` rows equals the number of rows,
otherwise `ATRASADO` when some row is `ATRASADO`, otherwise `ACTIVO`; and any grouping of any
permutation of the rows gives the same loan status. -/
theorem c1_loan_status_from_counts (statuses : List String) (counts : List StatusCount)
    (h : IsGrouping counts statuses) :
    recomputeLoanStatus counts =
        (if statuses.count "PAGADO" = statuses.length then "PAGADO"
         else if 0 < statuses.count "ATRASADO" then "ATRASADO" else "ACTIVO") ∧
      ∀ (statuses2 : List String) (counts2 : List StatusCount),
        statuses.Perm statuses2 → IsGrouping counts2 statuses2 →
          recomputeLoanStatus counts2 = recomputeLoanStatus counts := by
  refine ⟨recomputeLoanStatus_grouping h, ?_⟩
  intro statuses2 counts2 hperm h2
  rw [recomputeLoanStatus_grouping h, recomputeLoanStatus_grouping h2,
    hperm.count_eq, hperm.count_eq, hperm.length_eq]

/-- Witness of C1: three rows `PAGADO, ATRASADO, PAGADO`, grouped by the model of `groupBy`, and
the rows in another order grouped in another order. -/
theorem c1_loan_status_from_counts_witness :
    IsGrouping (groupByStatus ["PAGADO", "ATRASADO", "PAGADO"]) ["PAGADO", "ATRASADO", "PAGADO"] ∧
    (recomputeLoanStatus (groupByStatus ["PAGADO", "ATRASADO", "PAGADO"]) =
        (if ["PAGADO", "ATRASADO", "PAGADO"].count "PAGADO" =
            ["PAGADO", "ATRASADO", "PAGADO"].length then "PAGADO"
         else if 0 < ["PAGADO", "ATRASADO", "PAGADO"].count "ATRASADO" then "ATRASADO"
         else "ACTIVO") ∧
      ∀ (statuses2 : List String) (counts2 : List StatusCount),
        ["PAGADO", "ATRASADO", "PAGADO"].Perm statuses2 → IsGrouping counts2 statuses2 →
          recomputeLoanStatus counts2 =
            recomputeLoanStatus (groupByStatus ["PAGADO", "ATRASADO", "PAGADO"])) :=
  ⟨groupByStatus_isGrouping _,
    c1_loan_status_from_counts ["PAGADO", "ATRASADO", "PAGADO"]
      (groupByStatus ["PAGADO", "ATRASADO", "PAGADO"]) (groupByStatus_isGrouping _)⟩

/-! ### Civil-day arithmetic -/

theorem startOfDay_lt_iff (a b : Int) : startOfDay a < startOfDay b ↔ civilDay a < civilDay b := by
  unfold startOfDay msPerDay limaOffsetMs
  constructor <;> intro h <;> omega

theorem diffDays_startOfDay (a b : Int) :
    diffDays (startOfDay a) (startOfDay b) = civilDay a - civilDay b := by
  unfold diffDays startOfDay
  have h : civilDay a * msPerDay + limaOffsetMs - (civilDay b * msPerDay + limaOffsetMs)
      = (civilDay a - civilDay b) * msPerDay := by ring
  rw [h]
  exact Int.mul_tdiv_cancel _ (by decide)

theorem civilDay_mono {a b : Int} (h : a ≤ b) : civilDay a ≤ civilDay b := by
  unfold civilDay
  exact Int.ediv_le_ediv (by decide) (by omega)

theorem isAfter_startOfDay (a b : Int) :
    isAfter (startOfDay a) (startOfDay b) = decide (civilDay b < civilDay a) := by
  unfold isAfter
  simp only [startOfDay_lt_iff]

/-! ### C2, C3, C4 -/

/-- C2: an installment whose `paidAt` is set resolves to `PAGADO`, whatever its persisted status
and whatever today is, with `daysOverdue = max(0, civil days from dueDate to paidAt)`; when it
was paid on or before the due date (as instants or as civil days) `daysOverdue` is 0. -/
theorem c2_paid_installment_resolves_paid (nowDate : Int) (s : Schedule) (p : Int)
    (hp : s.paidAt = some p) :
    (resolveInstallment nowDate s).computedStatus = "PAGADO" ∧
    (resolveInstallment nowDate s).daysOverdue = max 0 (civilDaysBetween s.dueDate p) ∧
    (p ≤ s.dueDate → (resolveInstallment nowDate s).daysOverdue = 0) ∧
    (civilDay p ≤ civilDay s.dueDate → (resolveInstallment nowDate s).daysOverdue = 0) := by
  have hdays : (resolveInstallment nowDate s).daysOverdue = max 0 (civilDaysBetween s.dueDate p) := by
    simp only [resolveInstallment, hp, isAfter_startOfDay, diffDays_startOfDay, civilDaysBetween]
    by_cases h : civilDay s.dueDate < civilDay p
    · simp only [h, decide_True, if_true]; omega
    · simp only [h, decide_False]; simp; omega
  refine ⟨?_, hdays, ?_, ?_⟩
  · simp [resolveInstallment, hp]
  · intro hle
    have := civilDay_mono hle
    rw [hdays]; unfold civilDaysBetween; omega
  · intro hle
    rw [hdays]; unfold civilDaysBetween; omega

/-- Witness of C2: due on civil day 10, paid on civil day 12, read on civil day 0. -/
theorem c2_paid_installment_resolves_paid_witness :
    (resolveInstallment 18000000
        { id := 1, loanId := 1, installmentNumber := 1, dueDate := 882000000,
          status := "PENDIENTE", paidAt := some 1054800000 }).computedStatus = "PAGADO" ∧
    (resolveInstallment 18000000
        { id := 1, loanId := 1, installmentNumber := 1, dueDate := 882000000,
          status := "PENDIENTE", paidAt := some 1054800000 }).daysOverdue = 2 :=
  ⟨(c2_paid_installment_resolves_paid 18000000
      { id := 1, loanId := 1, installmentNumber := 1, dueDate := 882000000,
        status := "PENDIENTE", paidAt := some 1054800000 } 1054800000 rfl).1,
   (c2_paid_installment_resolves_paid 18000000
      { id := 1, loanId := 1, installmentNumber := 1, dueDate := 882000000,
        status := "PENDIENTE", paidAt := some 1054800000 } 1054800000 rfl).2.1.trans (by decide)⟩

/-- C3: an installment with `paidAt` unset, persisted status other than `PAGADO` and today's
civil day strictly after the due civil day resolves to `ATRASADO`, with `daysOverdue` the number
of civil days from dueDate to today, which is positive. -/
theorem c3_unpaid_past_due_resolves_overdue (nowDate : Int) (s : Schedule)
    (hp : s.paidAt = none) (hs : s.status ≠ "PAGADO")
    (hlate : civilDay s.dueDate < civilDay nowDate) :
    (resolveInstallment nowDate s).computedStatus = "ATRASADO" ∧
    (resolveInstallment nowDate s).daysOverdue = civilDaysBetween s.dueDate nowDate ∧
    0 < (resolveInstallment nowDate s).daysOverdue := by
  have hdays : (resolveInstallment nowDate s).daysOverdue = civilDaysBetween s.dueDate nowDate := by
    simp only [resolveInstallment, hp, isAfter_startOfDay, diffDays_startOfDay, civilDaysBetween,
      hlate, decide_True, if_true]
  refine ⟨?_, hdays, ?_⟩
  · simp [resolveInstallment, hp, isAfter_startOfDay, hlate, hs]
  · rw [hdays]; unfold civilDaysBetween; omega

/-- Witness of C3: due on civil day 10, unpaid and `PENDIENTE`, read on civil day 13. -/
theorem c3_unpaid_past_due_resolves_overdue_witness :
    (resolveInstallment 1141200000
        { id := 1, loanId := 1, installmentNumber := 1, dueDate := 882000000,
          status := "PENDIENTE", paidAt := none }).computedStatus = "ATRASADO" ∧
    (resolveInstallment 1141200000
        { id := 1, loanId := 1, installmentNumber := 1, dueDate := 882000000,
          status := "PENDIENTE", paidAt := none }).daysOverdue = 3 :=
  ⟨(c3_unpaid_past_due_resolves_overdue 1141200000
      { id := 1, loanId := 1, installmentNumber := 1, dueDate := 882000000,
        status := "PENDIENTE", paidAt := none } rfl (by decide) (by decide)).1,
   (c3_unpaid_past_due_resolves_overdue 1141200000
      { id := 1, loanId := 1, installmentNumber := 1, dueDate := 882000000,
        status := "PENDIENTE", paidAt := none } rfl (by decide) (by decide)).2.1.trans (by decide)⟩

/-- The fallback rule on any row: with `paidAt` unset and today not after the due day, the
computed status is the persisted one and `daysOverdue` is 0; with `paidAt` unset and persisted
status `PAGADO` the computed status is still `PAGADO`. -/
theorem resolveInstallment_fallback (nowDate : Int) (s : Schedule) (hp : s.paidAt = none) :
    (civilDay nowDate ≤ civilDay s.dueDate →
      (resolveInstallment nowDate s).computedStatus = s.status ∧
      (resolveInstallment nowDate s).daysOverdue = 0) ∧
    (s.status = "PAGADO" → (resolveInstallment nowDate s).computedStatus = s.status) := by
  constructor
  · intro hle
    have hnot : ¬ civilDay s.dueDate < civilDay nowDate := by omega
    simp [resolveInstallment, hp, isAfter_startOfDay, hnot]
  · intro hst
    simp [resolveInstallment, hp, hst]

/-- C4: for every stored installment (`paidAt` non-null iff status `PAGADO`, the invariant of
the data model that the creation and the toggle keep) that falls in neither the paid branch nor
the overdue branch, that is `paidAt` unset and either persisted status `PAGADO` or today not
after the due day, the computed status is the persisted status unchanged and `daysOverdue`
is 0. -/
theorem c4_fallback_keeps_status (nowDate : Int) (s : Schedule) (hinv : PaidAtIffPaid s)
    (hp : s.paidAt = none)
    (hcase : s.status = "PAGADO" ∨ civilDay nowDate ≤ civilDay s.dueDate) :
    (resolveInstallment nowDate s).computedStatus = s.status ∧
    (resolveInstallment nowDate s).daysOverdue = 0 := by
  have hnot : s.status ≠ "PAGADO" := by
    intro hst
    have := hinv.mpr hst
    rw [hp] at this
    exact absurd this (by decide)
  rcases hcase with h | h
  · exact absurd h hnot
  · exact (resolveInstallment_fallback nowDate s hp).1 h

/-- Witness of C4: a pending installment due on civil day 10, read on civil day 10, keeps
`PENDIENTE` with no overdue days. -/
theorem c4_fallback_keeps_status_witness :
    (resolveInstallment 882000000
        { id := 1, loanId := 1, installmentNumber := 1, dueDate := 882000000,
          status := "PENDIENTE", paidAt := none }).computedStatus = "PENDIENTE" ∧
    (resolveInstallment 882000000
        { id := 1, loanId := 1, installmentNumber := 1, dueDate := 882000000,
          status := "PENDIENTE", paidAt := none }).daysOverdue = 0 :=
  c4_fallback_keeps_status 882000000
    { id := 1, loanId := 1, installmentNumber := 1, dueDate := 882000000,
      status := "PENDIENTE", paidAt := none } (by decide) rfl (Or.inr (by decide))

/-- Outside the stored-row invariant: on a row with status `PAGADO` and no `paidAt`, which no
writer of the routes produces, the resolver keeps the status `PAGADO` and still counts the days
since the due day (due on civil day 10, read on civil day 13). -/
theorem resolveInstallment_outside_invariant :
    (resolveInstallment 1141200000
        { id := 1, loanId := 1, installmentNumber := 1, dueDate := 882000000,
          status := "PAGADO", paidAt := none }).computedStatus = "PAGADO" ∧
    (resolveInstallment 1141200000
        { id := 1, loanId := 1, installmentNumber := 1, dueDate := 882000000,
          status := "PAGADO", paidAt := none }).daysOverdue = 3 := by
  decide

/-! ### LoanCreationPolicy -/

theorem find_client (clients : List Int) (x : Int) :
    clients.find? (fun c => c == x) = if x ∈ clients then some x else none := by
  induction clients with
  | nil => simp
  | cons c cs ih =>
    by_cases h : c = x
    · subst h; simp
    · have h2 : ¬ x = c := fun e => h e.symm
      simp [List.find?_cons, h, h2, ih]

theorem find_open_loan_none (loans : List Loan) (x : Int) :
    loans.find? (fun l => l.clientId == x && l.status != "PAGADO") = none ↔
      ∀ l ∈ loans, l.clientId = x → l.status = "PAGADO" := by
  rw [List.find?_eq_none]
  constructor
  · intro h l hl hx
    have := h l hl
    simp [hx] at this
    exact this
  · intro h l hl
    by_cases hx : l.clientId = x
    · simp [hx, h l hl hx]
    · simp [hx]

/-- The handler as one chain of conditions on the request and the store. -/
theorem createLoanHandler_chain (nowDate newLoanId : Int) (rows : List Schedule)
    (req : CreateRequest) (db : Db) :
    createLoanHandler nowDate newLoanId rows req db =
      if userIdFalsy req.userId = true then (db, Response.error 401 "Usuario no autenticado")
      else if civilDay req.startDate < civilDay nowDate then
        (db, Response.error 400 "La fecha del préstamo no puede ser pasada")
      else if req.principal < 300 then (db, Response.error 400 "El monto mínimo es S/ 300.")
      else if req.principal > 200000 then
        (db, Response.error 400 "El monto máximo es S/ 200,000.")
      else if req.interestRate < 0.10 then
        (db, Response.error 400 "La tasa mínima es 10% (0.10).")
      else if req.principal ≥ 5350 ∧ req.declarationAccepted ≠ JsValue.bool true then
        (db, Response.error 400
          "Para montos desde S/ 5,350 debe descargar y aceptar la Declaración Jurada.")
      else if req.clientId ∉ db.clients then (db, Response.error 404 "Cliente no encontrado")
      else if ¬ (∀ l ∈ db.loans, l.clientId = req.clientId → l.status = "PAGADO") then
        (db, Response.error 400 "El cliente ya tiene un préstamo activo.")
      else (persistLoan newLoanId rows req db, Response.ok 201) := by
  unfold createLoanHandler
  simp only [isBefore, startOfDay_lt_iff, decide_eq_true_eq, find_client]
  split_ifs with h1 h2 h3 h4 h5 h6 h7 h8 <;> try rfl
  · have h8b := (find_open_loan_none db.loans req.clientId).mpr h8
    simp only [h8b, persistLoan]
  · obtain ⟨l, hl⟩ := Option.ne_none_iff_exists.mp
      (fun e => h8 ((find_open_loan_none db.loans req.clientId).mp e))
    simp only [← hl]

theorem createValidators_eq_true (req : CreateRequest) :
    createValidators req = true ↔
      (0 < req.principal ∧ 0 ≤ req.interestRate ∧ 6 ≤ req.termCount ∧ req.termCount ≤ 60) := by
  unfold createValidators
  simp only [Bool.and_eq_true, decide_eq_true_eq]
  tauto

theorem userIdFalsy_ne_true {u : Option Int} (h : userIdFalsy u = false) :
    ¬ userIdFalsy u = true := by
  rw [h]; decide

/-- The route answers `201` exactly under the nine conditions, for an authenticated user. -/
theorem createLoan_ok_iff (nowDate newLoanId : Int) (rows : List Schedule)
    (req : CreateRequest) (db : Db) (hauth : userIdFalsy req.userId = false) :
    (createLoan nowDate newLoanId rows req db).2 = Response.ok 201 ↔
      (300 ≤ req.principal ∧ req.principal ≤ 200000 ∧ 0.10 ≤ req.interestRate ∧
        6 ≤ req.termCount ∧ req.termCount ≤ 60 ∧
        civilDay nowDate ≤ civilDay req.startDate ∧
        (req.principal < 5350 ∨ req.declarationAccepted = JsValue.bool true) ∧
        req.clientId ∈ db.clients ∧
        ∀ l ∈ db.loans, l.clientId = req.clientId → l.status = "PAGADO") := by
  have hauth2 := userIdFalsy_ne_true hauth
  unfold createLoan handleValidation
  rw [createLoanHandler_chain]
  by_cases hv : createValidators req = true
  · have hv2 := (createValidators_eq_true req).mp hv
    rw [if_pos hv]
    split_ifs with h2 h3 h4 h5 h6 h7 h8
    · constructor
      · intro h; exact absurd h (by simp)
      · rintro ⟨_, _, _, _, _, c, _⟩; omega
    · constructor
      · intro h; exact absurd h (by simp)
      · rintro ⟨c, _⟩; linarith
    · constructor
      · intro h; exact absurd h (by simp)
      · rintro ⟨_, c, _⟩; linarith
    · constructor
      · intro h; exact absurd h (by simp)
      · rintro ⟨_, _, c, _⟩; linarith
    · constructor
      · intro h; exact absurd h (by simp)
      · rintro ⟨_, _, _, _, _, _, c, _⟩
        rcases c with c | c
        · linarith [h6.1]
        · exact h6.2 c
    · constructor
      · intro _
        refine ⟨by linarith, by linarith, by linarith, hv2.2.2.1, hv2.2.2.2, by omega, ?_,
          h7, h8⟩
        by_cases hp : req.principal < 5350
        · exact Or.inl hp
        · right
          by_contra hd
          exact h6 ⟨by linarith, hd⟩
      · intro _; rfl
    · constructor
      · intro h; exact absurd h (by simp)
      · rintro ⟨_, _, _, _, _, _, _, _, c⟩; exact h8 c
    · constructor
      · intro h; exact absurd h (by simp)
      · rintro ⟨_, _, _, _, _, _, _, c, _⟩; exact h7 c
  · rw [if_neg hv]
    constructor
    · intro h; exact absurd h (by simp)
    · rintro ⟨c1, _, c3, c4, c5, _⟩
      exact absurd ((createValidators_eq_true req).mpr ⟨by linarith, by linarith, c4, c5⟩) hv

/-- Whatever the answer, the store is either untouched or extended by the created loan. -/
theorem createLoan_store (nowDate newLoanId : Int) (rows : List Schedule)
    (req : CreateRequest) (db : Db) :
    ((createLoan nowDate newLoanId rows req db).2 = Response.ok 201 →
      (createLoan nowDate newLoanId rows req db).1 = persistLoan newLoanId rows req db) ∧
    ((createLoan nowDate newLoanId rows req db).2 ≠ Response.ok 201 →
      (createLoan nowDate newLoanId rows req db).1 = db) := by
  unfold createLoan handleValidation
  rw [createLoanHandler_chain]
  split_ifs <;> simp

/-! ### C5 -/

/-- C5: for an authenticated user, the creation request is answered `201` and persisted if and
only if principal is within [300, 200000], interestRate >= 0.10, termCount is within [6, 60],
the start day is not before today, principal < 5350 or `declarationAccepted === true`, the
client exists and owns no loan whose status differs from `PAGADO`; otherwise the store is left
untouched. In particular principal 299.99 is rejected, principal 5350 with
`declarationAccepted = false` is rejected, and principal 5350 with `declarationAccepted = true`
is accepted when the other rules hold. -/
theorem c5_creation_gate (nowDate newLoanId : Int) (rows : List Schedule)
    (req : CreateRequest) (db : Db) (hauth : userIdFalsy req.userId = false) :
    ((createLoan nowDate newLoanId rows req db).2 = Response.ok 201 ↔
      (300 ≤ req.principal ∧ req.principal ≤ 200000 ∧ 0.10 ≤ req.interestRate ∧
        6 ≤ req.termCount ∧ req.termCount ≤ 60 ∧
        civilDay nowDate ≤ civilDay req.startDate ∧
        (req.principal < 5350 ∨ req.declarationAccepted = JsValue.bool true) ∧
        req.clientId ∈ db.clients ∧
        ∀ l ∈ db.loans, l.clientId = req.clientId → l.status = "PAGADO")) ∧
    ((createLoan nowDate newLoanId rows req db).2 = Response.ok 201 →
      (createLoan nowDate newLoanId rows req db).1 = persistLoan newLoanId rows req db) ∧
    ((createLoan nowDate newLoanId rows req db).2 ≠ Response.ok 201 →
      (createLoan nowDate newLoanId rows req db).1 = db) ∧
    (req.principal = 299.99 →
      (createLoan nowDate newLoanId rows req db).2 ≠ Response.ok 201) ∧
    (req.principal = 5350 → req.declarationAccepted = JsValue.bool false →
      (createLoan nowDate newLoanId rows req db).2 ≠ Response.ok 201) ∧
    (req.principal = 5350 → req.declarationAccepted = JsValue.bool true →
      0.10 ≤ req.interestRate → 6 ≤ req.termCount → req.termCount ≤ 60 →
      civilDay nowDate ≤ civilDay req.startDate → req.clientId ∈ db.clients →
      (∀ l ∈ db.loans, l.clientId = req.clientId → l.status = "PAGADO") →
      (createLoan nowDate newLoanId rows req db).2 = Response.ok 201) := by
  have hiff := createLoan_ok_iff nowDate newLoanId rows req db hauth
  have hstore := createLoan_store nowDate newLoanId rows req db
  refine ⟨hiff, hstore.1, hstore.2, ?_, ?_, ?_⟩
  · intro hp hok
    have := (hiff.mp hok).1
    rw [hp] at this
    norm_num at this
  · intro hp hd hok
    have h := (hiff.mp hok).2.2.2.2.2.2.1
    rw [hp, hd] at h
    rcases h with h | h
    · norm_num at h
    · simp at h
  · intro hp hd hr ht1 ht2 hday hc hl
    refine hiff.mpr ⟨?_, ?_, hr, ht1, ht2, hday, Or.inr hd, hc, hl⟩ <;> rw [hp] <;> norm_num

/-- Witness of C5: principal 5350 with the declaration accepted, for an existing client without
loans, starting today, is created. -/
theorem c5_creation_gate_witness :
    userIdFalsy (sampleRequest 5350 882000000 (JsValue.bool true)).userId = false ∧
    (createLoan 882000000 1 [] (sampleRequest 5350 882000000 (JsValue.bool true)) sampleDb).2
      = Response.ok 201 :=
  ⟨rfl, (c5_creation_gate 882000000 1 [] (sampleRequest 5350 882000000 (JsValue.bool true))
      sampleDb rfl).2.2.2.2.2 rfl rfl (by norm_num [sampleRequest]) (by decide) (by decide)
      (by decide) (by decide) (by decide)⟩

/-! ### C6 -/

/-- C6 as stated fails: a request with principal 100 (below the minimum) and a start day three
days in the past violates the principal check, which comes first in the stated order, but the
route reports the start-date error, because it compares the dates before the amounts. -/
theorem c6_stated_order_counterexample :
    specOrderError 1141200000 (sampleRequest 100 882000000 JsValue.undefined) sampleDb
      = some (Response.error 400 "El monto mínimo es S/ 300.") ∧
    (createLoan 1141200000 1 [] (sampleRequest 100 882000000 JsValue.undefined) sampleDb).2
      = Response.error 400 "La fecha del préstamo no puede ser pasada" ∧
    some (createLoan 1141200000 1 [] (sampleRequest 100 882000000 JsValue.undefined) sampleDb).2
      ≠ specOrderError 1141200000 (sampleRequest 100 882000000 JsValue.undefined) sampleDb := by
  have h1 : specOrderError 1141200000 (sampleRequest 100 882000000 JsValue.undefined) sampleDb
      = some (Response.error 400 "El monto mínimo es S/ 300.") := by
    unfold specOrderError
    norm_num [sampleRequest]
  have h2 : (createLoan 1141200000 1 [] (sampleRequest 100 882000000 JsValue.undefined)
      sampleDb).2 = Response.error 400 "La fecha del préstamo no puede ser pasada" := by
    unfold createLoan handleValidation
    rw [createLoanHandler_chain]
    have hv : createValidators (sampleRequest 100 882000000 JsValue.undefined) = true := by
      rw [createValidators_eq_true]; norm_num [sampleRequest]
    have hu : ¬ userIdFalsy (sampleRequest 100 882000000 JsValue.undefined).userId = true := by
      decide
    have hd : civilDay (sampleRequest 100 882000000 JsValue.undefined).startDate
        < civilDay 1141200000 := by decide
    rw [if_pos hv, if_neg hu, if_pos hd]
  refine ⟨h1, h2, ?_⟩
  rw [h1, h2]
  decide

/-- C6, amended to the order of the code: for an authenticated user, a request that fails the
request validators (principal > 0, interestRate >= 0, termCount within [6, 60]) is answered by
the validation middleware; otherwise the answer is the error of the first violated check in the
order start day not before today, principal >= 300, principal <= 200000, interestRate >= 0.10,
declaration accepted when principal >= 5350, client exists, client has no loan that is not
`PAGADO`. In every such case the store is returned unchanged. -/
theorem c6_first_failure_in_code_order (nowDate newLoanId : Int) (rows : List Schedule)
    (req : CreateRequest) (db : Db) (hauth : userIdFalsy req.userId = false) :
    (¬ (0 < req.principal ∧ 0 ≤ req.interestRate ∧ 6 ≤ req.termCount ∧ req.termCount ≤ 60) →
      createLoan nowDate newLoanId rows req db = (db, Response.validation)) ∧
    ((0 < req.principal ∧ 0 ≤ req.interestRate ∧ 6 ≤ req.termCount ∧ req.termCount ≤ 60) →
      (civilDay req.startDate < civilDay nowDate →
        createLoan nowDate newLoanId rows req db
          = (db, Response.error 400 "La fecha del préstamo no puede ser pasada")) ∧
      (civilDay nowDate ≤ civilDay req.startDate →
        (req.principal < 300 →
          createLoan nowDate newLoanId rows req db
            = (db, Response.error 400 "El monto mínimo es S/ 300.")) ∧
        (300 ≤ req.principal →
          (200000 < req.principal →
            createLoan nowDate newLoanId rows req db
              = (db, Response.error 400 "El monto máximo es S/ 200,000.")) ∧
          (req.principal ≤ 200000 →
            (req.interestRate < 0.10 →
              createLoan nowDate newLoanId rows req db
                = (db, Response.error 400 "La tasa mínima es 10% (0.10).")) ∧
            (0.10 ≤ req.interestRate →
              (5350 ≤ req.principal ∧ req.declarationAccepted ≠ JsValue.bool true →
                createLoan nowDate newLoanId rows req db
                  = (db, Response.error 400
                      "Para montos desde S/ 5,350 debe descargar y aceptar la Declaración Jurada.")) ∧
              (req.principal < 5350 ∨ req.declarationAccepted = JsValue.bool true →
                (req.clientId ∉ db.clients →
                  createLoan nowDate newLoanId rows req db
                    = (db, Response.error 404 "Cliente no encontrado")) ∧
                (req.clientId ∈ db.clients →
                  (∃ l ∈ db.loans, l.clientId = req.clientId ∧ l.status ≠ "PAGADO") →
                  createLoan nowDate newLoanId rows req db
                    = (db, Response.error 400 "El cliente ya tiene un préstamo activo."))))))))
    := by
  have hauth2 := userIdFalsy_ne_true hauth
  unfold createLoan handleValidation
  rw [createLoanHandler_chain]
  constructor
  · intro hV
    have hv : ¬ createValidators req = true := fun h => hV ((createValidators_eq_true req).mp h)
    rw [if_neg hv]
  · intro hV
    rw [if_pos ((createValidators_eq_true req).mpr hV), if_neg hauth2]
    constructor
    · intro hd; rw [if_pos hd]
    intro hd
    rw [if_neg (not_lt.mpr hd)]
    constructor
    · intro h3; rw [if_pos h3]
    intro h3
    rw [if_neg (not_lt.mpr h3)]
    constructor
    · intro h4; rw [if_pos h4]
    intro h4
    rw [if_neg (not_lt.mpr h4)]
    constructor
    · intro h5; rw [if_pos h5]
    intro h5
    rw [if_neg (not_lt.mpr h5)]
    constructor
    · intro h6; rw [if_pos h6]
    intro h6
    have h6n : ¬ (req.principal ≥ 5350 ∧ req.declarationAccepted ≠ JsValue.bool true) := by
      rintro ⟨a, b⟩
      rcases h6 with c | c
      · exact absurd a (not_le.mpr c)
      · exact b c
    rw [if_neg h6n]
    constructor
    · intro h7; rw [if_pos h7]
    intro h7 h8
    have h8n : ¬ ∀ l ∈ db.loans, l.clientId = req.clientId → l.status = "PAGADO" := by
      intro hall
      obtain ⟨l, hl, hc, hs⟩ := h8
      exact hs (hall l hl hc)
    rw [if_neg (not_not.mpr h7), if_pos h8n]

/-- Witness of C6 (amended): the request of the counterexample passes the validators, starts in
the past, and is answered with the start-date error, the store untouched. -/
theorem c6_first_failure_in_code_order_witness :
    userIdFalsy (sampleRequest 100 882000000 JsValue.undefined).userId = false ∧
    civilDay (sampleRequest 100 882000000 JsValue.undefined).startDate < civilDay 1141200000 ∧
    createLoan 1141200000 1 [] (sampleRequest 100 882000000 JsValue.undefined) sampleDb
      = (sampleDb, Response.error 400 "La fecha del préstamo no puede ser pasada") :=
  ⟨rfl, by decide,
    ((c6_first_failure_in_code_order 1141200000 1 []
      (sampleRequest 100 882000000 JsValue.undefined) sampleDb rfl).2
        (by norm_num [sampleRequest])).1 (by decide)⟩

/-! ### Installment toggle -/

theorem mem_updateSchedule {schedules : List Schedule} {id : Int} {data : ToggleData}
    {s : Schedule} (h : s ∈ updateSchedule schedules id data) :
    (s.id = id ∧ s.status = data.status ∧ s.paidAt = data.paidAt) ∨ (s ∈ schedules ∧ s.id ≠ id) := by
  unfold updateSchedule at h
  rw [List.mem_map] at h
  obtain ⟨t, ht, rfl⟩ := h
  by_cases hid : t.id = id
  · left; simp [hid]
  · right; simp [hid, ht]

theorem updateSchedule_loanId {schedules : List Schedule} {id : Int} {data : ToggleData}
    {s : Schedule} (h : s ∈ updateSchedule schedules id data) :
    ∃ t ∈ schedules, t.id = s.id ∧ t.loanId = s.loanId := by
  unfold updateSchedule at h
  rw [List.mem_map] at h
  obtain ⟨t, ht, rfl⟩ := h
  refine ⟨t, ht, ?_⟩
  by_cases hid : t.id = id <;> simp [hid]

theorem toggleData_invariant (nowDate : Int) (paid : JsValue) (paidAt : Option Int) :
    (toggleData nowDate paid paidAt).paidAt.isSome = true ↔
      (toggleData nowDate paid paidAt).status = "PAGADO" := by
  unfold toggleData
  by_cases h : paid.truthy = true
  · simp [h]
  · simp [h]

/-- The four outcomes of the toggle handler. -/
theorem toggleHandler_cases (nowDate : Int) (req : ToggleRequest) (db : Db) :
    toggleHandler nowDate req db = (db, Response.error 404 "Cuota no encontrada") ∨
    toggleHandler nowDate req db = (db, Response.failure) ∨
    ((∃ t, db.schedules.find? (fun s => s.id == req.scheduleId) = some t ∧
        t.loanId = req.loanId) ∧
      (db.loans.any (fun l => l.id == req.loanId)) = true ∧
      toggleHandler nowDate req db =
        ({ db with
            schedules := updateSchedule db.schedules req.scheduleId
              (toggleData nowDate req.paid req.paidAt)
            loans := updateLoanStatus db.loans req.loanId
              (recomputeLoanStatus (groupByStatus (statusesOfLoan
                (updateSchedule db.schedules req.scheduleId
                  (toggleData nowDate req.paid req.paidAt)) req.loanId))) },
          Response.ok 200)) := by
  unfold toggleHandler
  cases hfind : db.schedules.find? (fun s => s.id == req.scheduleId) with
  | none => left; rfl
  | some t =>
    by_cases hl : t.loanId = req.loanId
    · by_cases ha : (db.loans.any (fun l => l.id == req.loanId)) = true
      · right; right
        refine ⟨⟨t, rfl, hl⟩, ha, ?_⟩
        simp only [hl, ne_eq, not_true_eq_false, if_false, ha, if_true]
      · right; left
        simp only [hl, ne_eq, not_true_eq_false, if_false, ha]
        rfl
    · left
      simp only [ne_eq, hl, not_false_eq_true, if_true]

/-- The store after any toggle request: untouched, or the schedule table updated with the
`data` of the request. -/
theorem toggleInstallment_schedules (nowDate : Int) (req : ToggleRequest) (db : Db) :
    (toggleInstallment nowDate req db).1 = db ∨
    ((toggleInstallment nowDate req db).2 = Response.ok 200 ∧
     (toggleInstallment nowDate req db).1.schedules =
      updateSchedule db.schedules req.scheduleId (toggleData nowDate req.paid req.paidAt)) := by
  unfold toggleInstallment handleValidation
  by_cases hv : isBooleanValue req.paid = true
  · rw [if_pos hv]
    rcases toggleHandler_cases nowDate req db with h | h | ⟨_, _, h⟩
    · left; rw [h]
    · left; rw [h]
    · right; rw [h]; exact ⟨rfl, rfl⟩
  · rw [if_neg hv]; left; rfl

theorem toggleInstallment_ok_schedules (nowDate : Int) (req : ToggleRequest) (db : Db)
    (hok : (toggleInstallment nowDate req db).2 = Response.ok 200) :
    (toggleInstallment nowDate req db).1.schedules =
      updateSchedule db.schedules req.scheduleId (toggleData nowDate req.paid req.paidAt) := by
  revert hok
  unfold toggleInstallment handleValidation
  by_cases hv : isBooleanValue req.paid = true
  · rw [if_pos hv]
    rcases toggleHandler_cases nowDate req db with h | h | ⟨_, _, h⟩
    · rw [h]; intro hok; simp at hok
    · rw [h]; intro hok; simp at hok
    · rw [h]; intro _; rfl
  · rw [if_neg hv]; intro hok; simp at hok

/-! ### C7 -/

/-- C7: for every toggle request (any `paid` value, with or without `paidAt`), the `data`
written has `paidAt` non-null iff its status is `PAGADO`; after an accepted toggle the toggled
installment satisfies 'paidAt non-null iff status PAGADO', and a store in which every installment
satisfies it still does after any toggle request. -/
theorem c7_toggle_keeps_paidAt_iff_paid (nowDate : Int) (req : ToggleRequest) (db : Db) :
    ((toggleData nowDate req.paid req.paidAt).paidAt.isSome = true ↔
      (toggleData nowDate req.paid req.paidAt).status = "PAGADO") ∧
    ((toggleInstallment nowDate req db).2 = Response.ok 200 →
      ∀ s ∈ (toggleInstallment nowDate req db).1.schedules, s.id = req.scheduleId →
        PaidAtIffPaid s) ∧
    ((∀ s ∈ db.schedules, PaidAtIffPaid s) →
      ∀ s ∈ (toggleInstallment nowDate req db).1.schedules, PaidAtIffPaid s) := by
  refine ⟨toggleData_invariant _ _ _, ?_, ?_⟩
  · intro hok s hs hid
    rw [toggleInstallment_ok_schedules nowDate req db hok] at hs
    rcases mem_updateSchedule hs with ⟨_, h1, h2⟩ | ⟨_, hne⟩
    · unfold PaidAtIffPaid
      rw [h1, h2]
      exact toggleData_invariant _ _ _
    · exact absurd hid hne
  · intro hinv s hs
    rcases toggleInstallment_schedules nowDate req db with h | ⟨_, h⟩
    · rw [h] at hs; exact hinv s hs
    · rw [h] at hs
      rcases mem_updateSchedule hs with ⟨_, h1, h2⟩ | ⟨hmem, _⟩
      · unfold PaidAtIffPaid
        rw [h1, h2]
        exact toggleData_invariant _ _ _
      · exact hinv s hmem

/-- Witness of C7: marking the last installment of the sample loan as paid keeps the invariant
on every installment of the store. -/
theorem c7_toggle_keeps_paidAt_iff_paid_witness :
    (∀ s ∈ sampleLoanDb.schedules, PaidAtIffPaid s) ∧
    (∀ s ∈ (toggleInstallment 3500000000 samplePayLast sampleLoanDb).1.schedules,
      PaidAtIffPaid s) :=
  ⟨by decide,
    (c7_toggle_keeps_paidAt_iff_paid 3500000000 samplePayLast sampleLoanDb).2.2 (by decide)⟩

/-! ### C8 -/

theorem toggleHandler_commit (nowDate : Int) (req : ToggleRequest) (db : Db)
    (hmem : ∃ s ∈ db.schedules, s.id = req.scheduleId)
    (hown : ∀ s ∈ db.schedules, s.id = req.scheduleId → s.loanId = req.loanId)
    (hloan : ∃ l ∈ db.loans, l.id = req.loanId) :
    toggleHandler nowDate req db =
      ({ db with
          schedules := updateSchedule db.schedules req.scheduleId
            (toggleData nowDate req.paid req.paidAt)
          loans := updateLoanStatus db.loans req.loanId
            (recomputeLoanStatus (groupByStatus (statusesOfLoan
              (updateSchedule db.schedules req.scheduleId
                (toggleData nowDate req.paid req.paidAt)) req.loanId))) },
        Response.ok 200) := by
  have hany : (db.loans.any (fun l => l.id == req.loanId)) = true := by
    rw [List.any_eq_true]
    obtain ⟨l, hl, hid⟩ := hloan
    exact ⟨l, hl, by simp [hid]⟩
  unfold toggleHandler
  cases hfind : db.schedules.find? (fun s => s.id == req.scheduleId) with
  | none =>
    obtain ⟨t, ht, hid⟩ := hmem
    have := List.find?_eq_none.mp hfind t ht
    simp [hid] at this
  | some t =>
    have htm : t ∈ db.schedules := List.mem_of_find?_eq_some hfind
    have hid : t.id = req.scheduleId := by
      have := List.find?_some hfind
      simpa using this
    have hl : t.loanId = req.loanId := hown t htm hid
    simp only [hl, ne_eq, not_true_eq_false, if_false, hany, if_true]

theorem statusesOfLoan_all_paid (nowDate : Int) (req : ToggleRequest) (db : Db)
    (hpaid : req.paid.truthy = true)
    (hothers : ∀ s ∈ db.schedules, s.loanId = req.loanId → s.id ≠ req.scheduleId →
      s.status = "PAGADO") :
    ∀ st ∈ statusesOfLoan (updateSchedule db.schedules req.scheduleId
        (toggleData nowDate req.paid req.paidAt)) req.loanId, "PAGADO" = st := by
  intro st hst
  unfold statusesOfLoan at hst
  rw [List.mem_map] at hst
  obtain ⟨s, hs, rfl⟩ := hst
  rw [List.mem_filter] at hs
  obtain ⟨hs1, hs2⟩ := hs
  have hlid : s.loanId = req.loanId := by simpa using hs2
  rcases mem_updateSchedule hs1 with ⟨_, h1, _⟩ | ⟨hm, hne⟩
  · rw [h1]; simp [toggleData, hpaid]
  · exact (hothers s hm hlid hne).symm

theorem updateLoanStatus_status {loans : List Loan} {id : Int} {status : String} {l : Loan}
    (h : l ∈ updateLoanStatus loans id status) (hid : l.id = id) : l.status = status := by
  unfold updateLoanStatus at h
  rw [List.mem_map] at h
  obtain ⟨t, _, rfl⟩ := h
  by_cases ht : t.id = id
  · simp [ht]
  · simp [ht] at hid

theorem updateLoanStatus_exists {loans : List Loan} {id : Int} (status : String)
    (h : ∃ l ∈ loans, l.id = id) : ∃ l ∈ updateLoanStatus loans id status, l.id = id := by
  obtain ⟨l, hl, hid⟩ := h
  refine ⟨{ l with status := status }, ?_, hid⟩
  unfold updateLoanStatus
  rw [List.mem_map]
  exact ⟨l, hl, by simp [hid]⟩

/-- C8: in a loan whose installments other than the toggled one are all `PAGADO`, an accepted
request that marks the remaining installment as paid (`paid = true`, any `paidAt` or none) is
answered `200` and yields one store in which the installment is `PAGADO` with its `paidAt` and
the loan status is `PAGADO`, whatever the loan status was before. -/
theorem c8_last_installment_paid_sets_loan_paid (nowDate : Int) (req : ToggleRequest) (db : Db)
    (hmem : ∃ s ∈ db.schedules, s.id = req.scheduleId)
    (hown : ∀ s ∈ db.schedules, s.id = req.scheduleId → s.loanId = req.loanId)
    (hloan : ∃ l ∈ db.loans, l.id = req.loanId)
    (hpaid : req.paid = JsValue.bool true)
    (hothers : ∀ s ∈ db.schedules, s.loanId = req.loanId → s.id ≠ req.scheduleId →
      s.status = "PAGADO") :
    (toggleInstallment nowDate req db).2 = Response.ok 200 ∧
    (∃ l ∈ (toggleInstallment nowDate req db).1.loans, l.id = req.loanId) ∧
    (∀ l ∈ (toggleInstallment nowDate req db).1.loans, l.id = req.loanId →
      l.status = "PAGADO") ∧
    (toggleInstallment nowDate req db).1.schedules =
      updateSchedule db.schedules req.scheduleId
        { status := "PAGADO", paidAt := some (req.paidAt.getD nowDate) } ∧
    (∀ s ∈ (toggleInstallment nowDate req db).1.schedules, s.loanId = req.loanId →
      s.status = "PAGADO") := by
  have htruthy : req.paid.truthy = true := by rw [hpaid]; rfl
  have hvalid : isBooleanValue req.paid = true := by rw [hpaid]; rfl
  have hdata : toggleData nowDate req.paid req.paidAt
      = { status := "PAGADO", paidAt := some (req.paidAt.getD nowDate) } := by
    unfold toggleData
    rw [if_pos htruthy]
    cases req.paidAt <;> rfl
  have hall := statusesOfLoan_all_paid nowDate req db htruthy hothers
  have hstatus : recomputeLoanStatus (groupByStatus (statusesOfLoan
      (updateSchedule db.schedules req.scheduleId (toggleData nowDate req.paid req.paidAt))
      req.loanId)) = "PAGADO" := by
    rw [recomputeLoanStatus_grouping (groupByStatus_isGrouping _),
      if_pos (List.count_eq_length.mpr hall)]
  have hrun : toggleInstallment nowDate req db =
      ({ db with
          schedules := updateSchedule db.schedules req.scheduleId
            { status := "PAGADO", paidAt := some (req.paidAt.getD nowDate) }
          loans := updateLoanStatus db.loans req.loanId "PAGADO" }, Response.ok 200) := by
    unfold toggleInstallment handleValidation
    rw [if_pos hvalid, toggleHandler_commit nowDate req db hmem hown hloan, hstatus, hdata]
  rw [hrun]
  refine ⟨rfl, updateLoanStatus_exists _ hloan, ?_, rfl, ?_⟩
  · intro l hl hid
    exact updateLoanStatus_status hl hid
  · intro s hs hlid
    rw [← hdata] at hs
    have : s.status ∈ statusesOfLoan (updateSchedule db.schedules req.scheduleId
        (toggleData nowDate req.paid req.paidAt)) req.loanId := by
      unfold statusesOfLoan
      rw [List.mem_map]
      exact ⟨s, List.mem_filter.mpr ⟨hs, by simp [hlid]⟩, rfl⟩
    exact (hall _ this).symm

/-- Witness of C8: in the sample store (loan 10 is `ATRASADO`, installment 1 is paid), paying
installment 2 with `paidAt` equal to its due date makes loan 10 `PAGADO`. -/
theorem c8_last_installment_paid_sets_loan_paid_witness :
    (toggleInstallment 3500000000 samplePayLast sampleLoanDb).2 = Response.ok 200 ∧
    (toggleInstallment 3500000000 samplePayLast sampleLoanDb).1.loans
      = [{ id := 10, clientId := 1, status := "PAGADO" }] ∧
    (∀ l ∈ (toggleInstallment 3500000000 samplePayLast sampleLoanDb).1.loans,
      l.id = samplePayLast.loanId → l.status = "PAGADO") :=
  ⟨by decide, by decide,
    (c8_last_installment_paid_sets_loan_paid 3500000000 samplePayLast sampleLoanDb
      (by decide) (by decide) (by decide) rfl (by decide)).2.2.1⟩

/-! ### Double arithmetic -/

theorem roundHalfEven_intCast (n : ℤ) : roundHalfEven (n : ℚ) = n := by
  unfold roundHalfEven
  simp

theorem floor_le_roundHalfEven (y : ℚ) : ⌊y⌋ ≤ roundHalfEven y := by
  unfold roundHalfEven
  split_ifs <;> omega

theorem roundHalfEven_le_floor_succ (y : ℚ) : roundHalfEven y ≤ ⌊y⌋ + 1 := by
  unfold roundHalfEven
  split_ifs <;> omega

theorem roundHalfEven_le_of_le (y : ℚ) (m : ℤ) (h : y ≤ m) : roundHalfEven y ≤ m := by
  rcases eq_or_lt_of_le h with h | h
  · rw [h, roundHalfEven_intCast]
  · have : ⌊y⌋ < m := Int.floor_lt.mpr h
    have := roundHalfEven_le_floor_succ y
    omega

theorem le_roundHalfEven_of_le (y : ℚ) (m : ℤ) (h : (m : ℚ) ≤ y) : m ≤ roundHalfEven y :=
  le_trans (Int.le_floor.mpr h) (floor_le_roundHalfEven y)

theorem two_zpow_of_nonneg (n : ℤ) (h : 0 ≤ n) : (2 : ℚ) ^ n = ((2 ^ n.toNat : ℤ) : ℚ) := by
  obtain ⟨m, rfl⟩ := Int.eq_ofNat_of_zero_le h
  simp

theorem quantum_ge (x : ℚ) : -1074 ≤ quantum x := le_max_right _ _

theorem quantum_mono {a b : ℚ} (ha : a ≠ 0) (h : |a| ≤ |b|) : quantum a ≤ quantum b := by
  unfold quantum
  exact max_le_max (sub_le_sub_right (Int.log_mono_right (abs_pos.mpr ha) h) 52) le_rfl

/-- a value below `2 ^ t` in magnitude has its quantum at most `t - 53` (or the subnormal one) -/
theorem quantum_le_of_abs_lt {x : ℚ} (hx : x ≠ 0) {t : ℤ} (h : |x| < 2 ^ t) :
    quantum x ≤ max (t - 53) (-1074) := by
  unfold quantum
  have hlog : Int.log 2 |x| < t := by
    have := (Int.lt_zpow_iff_log_lt (R := ℚ) (b := 2) (by norm_num) (abs_pos.mpr hx)).mp
      (by simpa using h)
    exact this
  exact max_le_max (by omega) le_rfl

theorem div_two_zpow_of_multiple {x : ℚ} (k t q : ℤ) (hq : q ≤ t) (h : x = k * 2 ^ t) :
    x / 2 ^ q = ((k * 2 ^ (t - q).toNat : ℤ) : ℚ) := by
  rw [h, mul_div_assoc, ← zpow_sub₀ (by norm_num : (2 : ℚ) ≠ 0),
    two_zpow_of_nonneg (t - q) (by omega)]
  push_cast
  rfl

theorem fl_eq_self_of_multiple {x : ℚ} (k t : ℤ) (ht : quantum x ≤ t) (h : x = k * 2 ^ t) :
    fl x = x := by
  have hq : (2 : ℚ) ^ quantum x ≠ 0 := zpow_ne_zero _ (by norm_num)
  have hdiv := div_two_zpow_of_multiple k t (quantum x) ht h
  unfold fl
  rw [hdiv, roundHalfEven_intCast, ← hdiv]
  field_simp

theorem fl_zero : fl 0 = 0 := fl_eq_self_of_multiple 0 (quantum 0) le_rfl (by simp)

theorem fl_multiple (x : ℚ) : fl x = (roundHalfEven (x / 2 ^ quantum x) : ℚ) * 2 ^ quantum x := rfl

theorem multiple_of_quantum {z : ℚ} (k t q : ℤ) (hq : q ≤ t) (h : z = k * 2 ^ t) :
    z = ((k * 2 ^ (t - q).toNat : ℤ) : ℚ) * 2 ^ q := by
  have hq0 : (2 : ℚ) ^ q ≠ 0 := zpow_ne_zero _ (by norm_num)
  rw [← div_two_zpow_of_multiple k t q hq h]
  field_simp

theorem fl_le_of_le {x z : ℚ} (k t : ℤ) (ht : quantum x ≤ t) (hz : z = k * 2 ^ t) (h : x ≤ z) :
    fl x ≤ z := by
  have hpos : (0 : ℚ) < 2 ^ quantum x := zpow_pos (by norm_num) _
  have hz2 := multiple_of_quantum k t (quantum x) ht hz
  have hy : x / 2 ^ quantum x ≤ ((k * 2 ^ (t - quantum x).toNat : ℤ) : ℚ) := by
    rw [div_le_iff₀ hpos, ← hz2]
    exact h
  have hr := roundHalfEven_le_of_le _ _ hy
  unfold fl
  calc (roundHalfEven (x / 2 ^ quantum x) : ℚ) * 2 ^ quantum x
      ≤ ((k * 2 ^ (t - quantum x).toNat : ℤ) : ℚ) * 2 ^ quantum x :=
        mul_le_mul_of_nonneg_right (by exact_mod_cast hr) hpos.le
    _ = z := hz2.symm

theorem le_fl_of_le {x z : ℚ} (k t : ℤ) (ht : quantum x ≤ t) (hz : z = k * 2 ^ t) (h : z ≤ x) :
    z ≤ fl x := by
  have hpos : (0 : ℚ) < 2 ^ quantum x := zpow_pos (by norm_num) _
  have hz2 := multiple_of_quantum k t (quantum x) ht hz
  have hy : ((k * 2 ^ (t - quantum x).toNat : ℤ) : ℚ) ≤ x / 2 ^ quantum x := by
    rw [le_div_iff₀ hpos, ← hz2]
    exact h
  have hr := le_roundHalfEven_of_le _ _ hy
  unfold fl
  calc z = ((k * 2 ^ (t - quantum x).toNat : ℤ) : ℚ) * 2 ^ quantum x := hz2
    _ ≤ (roundHalfEven (x / 2 ^ quantum x) : ℚ) * 2 ^ quantum x :=
        mul_le_mul_of_nonneg_right (by exact_mod_cast hr) hpos.le

theorem quantum_le_zero {x : ℚ} (hx : x ≠ 0) (h : |x| < 2 ^ (53 : ℤ)) : quantum x ≤ 0 := by
  have := quantum_le_of_abs_lt hx h
  simpa using this

/-- Rounding keeps a value between the integers that bound it. -/
theorem fl_between_ints {x : ℚ} (a b : ℤ) (ha : (a : ℚ) ≤ x) (hb : x ≤ b)
    (hlo : -(2 ^ 53 : ℚ) < a) (hhi : (b : ℚ) < 2 ^ 53) : (a : ℚ) ≤ fl x ∧ fl x ≤ b := by
  by_cases hx : x = 0
  · subst hx
    rw [fl_zero]
    exact ⟨ha, hb⟩
  · have habs : |x| < 2 ^ (53 : ℤ) := by
      rw [abs_lt]
      constructor
      · have : (-(2 : ℚ) ^ (53 : ℤ)) = -(2 ^ 53 : ℚ) := by norm_num
        rw [this]; linarith
      · have : ((2 : ℚ) ^ (53 : ℤ)) = (2 ^ 53 : ℚ) := by norm_num
        rw [this]; linarith
    have hq := quantum_le_zero hx habs
    exact ⟨le_fl_of_le a 0 hq (by simp) ha, fl_le_of_le b 0 hq (by simp) hb⟩

theorem fl_intCast (n : ℤ) (h : |(n : ℚ)| < 2 ^ (53 : ℤ)) : fl (n : ℚ) = n := by
  by_cases hn : (n : ℚ) = 0
  · rw [hn, fl_zero]
  · exact fl_eq_self_of_multiple n 0 (quantum_le_zero hn h) (by simp)

/-- Subtracting a whole number from a larger double below `2 ^ 53` does not round. -/
theorem fl_sub_nat_exact {c : ℚ} (hc : fl c = c) (n : ℕ) (h1 : (n : ℚ) < c)
    (h2 : c < 2 ^ (53 : ℤ)) : fl (c - n) = c - n := by
  have hn0 : (0 : ℚ) ≤ n := Nat.cast_nonneg n
  have hc0 : c ≠ 0 := by linarith
  have hq : quantum c ≤ 0 := quantum_le_zero hc0 (by rw [abs_of_pos (by linarith)]; exact h2)
  have hd0 : c - n ≠ 0 := by linarith
  have hqd : quantum (c - n) ≤ quantum c := by
    apply quantum_mono hd0
    rw [abs_of_pos (by linarith), abs_of_pos (by linarith)]
    linarith
  have hcm : c = (roundHalfEven (c / 2 ^ quantum c) : ℚ) * 2 ^ quantum c := by
    conv_lhs => rw [← hc]
    rfl
  have hnm := multiple_of_quantum (z := (n : ℚ)) (n : ℤ) 0 (quantum c) hq (by simp)
  apply fl_eq_self_of_multiple
    (roundHalfEven (c / 2 ^ quantum c) - (n : ℤ) * 2 ^ (0 - quantum c).toNat) (quantum c) hqd
  push_cast
  push_cast at hnm
  rw [sub_mul, ← hnm, ← hcm]

theorem abs_roundHalfEven_sub_le (y : ℚ) : |(roundHalfEven y : ℚ) - y| ≤ 1 / 2 := by
  have h1 : (⌊y⌋ : ℚ) ≤ y := Int.floor_le y
  have h2 : y < ⌊y⌋ + 1 := Int.lt_floor_add_one y
  unfold roundHalfEven
  rw [abs_le]
  split_ifs with ha hb hc
  · constructor <;> linarith
  · push_cast; constructor <;> linarith
  · constructor <;> linarith
  · push_cast; constructor <;> linarith

/-- Rounding a rounded value changes nothing: the result of `fl` is a double. -/
theorem fl_fl (x : ℚ) : fl (fl x) = fl x := by
  have h2 : (1 : ℕ) < 2 := by norm_num
  have hqpos : (0 : ℚ) < 2 ^ quantum x := zpow_pos (by norm_num) _
  by_cases hr : roundHalfEven (x / 2 ^ quantum x) = 0
  · have : fl x = 0 := by unfold fl; rw [hr]; simp
    rw [this, fl_zero]
  have hx : x ≠ 0 := by
    intro h0
    apply hr
    rw [h0, zero_div]
    exact_mod_cast roundHalfEven_intCast 0
  have hxabs : 0 < |x| := abs_pos.mpr hx
  have hz : fl x = (roundHalfEven (x / 2 ^ quantum x) : ℚ) * 2 ^ quantum x := rfl
  have hz0 : fl x ≠ 0 := by
    rw [hz]
    exact mul_ne_zero (by exact_mod_cast hr) hqpos.ne'
  -- the scaled value is below `2 ^ s` with `s = e + 1 - q`
  have hlt : |x| < (2 : ℚ) ^ (Int.log 2 |x| + 1) := by
    have := Int.lt_zpow_succ_log_self (R := ℚ) h2 |x|
    simpa using this
  have hqe : Int.log 2 |x| - 52 ≤ quantum x := le_max_left _ _
  have hy : |x / 2 ^ quantum x| < (2 : ℚ) ^ (Int.log 2 |x| + 1 - quantum x) := by
    rw [abs_div, abs_of_pos hqpos, zpow_sub₀ (by norm_num : (2 : ℚ) ≠ 0)]
    exact div_lt_div_of_pos_right hlt hqpos
  have hnear := abs_roundHalfEven_sub_le (x / 2 ^ quantum x)
  have hr1 : (1 : ℚ) ≤ |(roundHalfEven (x / 2 ^ quantum x) : ℚ)| := by
    have : (1 : ℤ) ≤ |roundHalfEven (x / 2 ^ quantum x)| := Int.one_le_abs hr
    exact_mod_cast this
  have hrlt : |(roundHalfEven (x / 2 ^ quantum x) : ℚ)|
      < (2 : ℚ) ^ (Int.log 2 |x| + 1 - quantum x) + 1 / 2 := by
    have := abs_sub_abs_le_abs_sub (roundHalfEven (x / 2 ^ quantum x) : ℚ) (x / 2 ^ quantum x)
    linarith
  -- so `s` is not negative and the rounded mantissa is at most `2 ^ s`
  have hs : 0 ≤ Int.log 2 |x| + 1 - quantum x := by
    by_contra hneg
    have hle : (2 : ℚ) ^ (Int.log 2 |x| + 1 - quantum x) ≤ 2 ^ (-1 : ℤ) :=
      zpow_le_zpow_right₀ (by norm_num) (by omega)
    have hhalf : (2 : ℚ) ^ (-1 : ℤ) = 1 / 2 := by norm_num
    rw [hhalf] at hle
    linarith
  have hrle : |(roundHalfEven (x / 2 ^ quantum x) : ℚ)|
      ≤ (2 : ℚ) ^ (Int.log 2 |x| + 1 - quantum x) := by
    rw [two_zpow_of_nonneg _ hs] at hrlt ⊢
    have : |roundHalfEven (x / 2 ^ quantum x)|
        < (2 ^ (Int.log 2 |x| + 1 - quantum x).toNat : ℤ) + 1 := by
      have h3 : ((|roundHalfEven (x / 2 ^ quantum x)| : ℤ) : ℚ)
          < ((2 ^ (Int.log 2 |x| + 1 - quantum x).toNat : ℤ) : ℚ) + 1 := by
        push_cast at hrlt ⊢
        linarith
      exact_mod_cast h3
    have h4 : |roundHalfEven (x / 2 ^ quantum x)|
        ≤ (2 ^ (Int.log 2 |x| + 1 - quantum x).toNat : ℤ) := by omega
    exact_mod_cast h4
  have hzle : |fl x| ≤ (2 : ℚ) ^ (Int.log 2 |x| + 1) := by
    rw [hz, abs_mul, abs_of_pos hqpos]
    calc |(roundHalfEven (x / 2 ^ quantum x) : ℚ)| * 2 ^ quantum x
        ≤ (2 : ℚ) ^ (Int.log 2 |x| + 1 - quantum x) * 2 ^ quantum x :=
          mul_le_mul_of_nonneg_right hrle hqpos.le
      _ = (2 : ℚ) ^ (Int.log 2 |x| + 1) := by
          rw [← zpow_add₀ (by norm_num : (2 : ℚ) ≠ 0)]
          congr 1
          ring
  have hzge : (2 : ℚ) ^ quantum x ≤ |fl x| := by
    rw [hz, abs_mul, abs_of_pos hqpos]
    calc (2 : ℚ) ^ quantum x = 1 * 2 ^ quantum x := (one_mul _).symm
      _ ≤ |(roundHalfEven (x / 2 ^ quantum x) : ℚ)| * 2 ^ quantum x :=
          mul_le_mul_of_nonneg_right hr1 hqpos.le
  rcases eq_or_lt_of_le hzle with heq | hlt2
  · -- the value was rounded up to the next power of two
    have hq1 : quantum x ≤ Int.log 2 |x| + 1 := by
      have : (2 : ℚ) ^ quantum x ≤ 2 ^ (Int.log 2 |x| + 1) := by rw [← heq]; exact hzge
      exact (zpow_le_zpow_iff_right₀ (by norm_num : (1 : ℚ) < 2)).mp this
    have hqz : quantum (fl x) ≤ Int.log 2 |x| + 1 := by
      unfold quantum
      rw [heq]
      have : Int.log 2 ((2 : ℚ) ^ (Int.log 2 |x| + 1)) = Int.log 2 |x| + 1 := by
        have := Int.log_zpow (R := ℚ) h2 (Int.log 2 |x| + 1)
        simpa using this
      rw [this]
      have := quantum_ge x
      exact max_le (by omega) (by omega)
    rcases le_or_lt 0 (fl x) with hpos | hneg
    · apply fl_eq_self_of_multiple 1 (Int.log 2 |x| + 1) hqz
      rw [← heq, abs_of_nonneg hpos]
      simp
    · apply fl_eq_self_of_multiple (-1) (Int.log 2 |x| + 1) hqz
      rw [← heq, abs_of_neg hneg]
      simp
  · -- the value stays in the binade of `x`: its quantum is at most that of `x`
    have hqz : quantum (fl x) ≤ quantum x := by
      have := quantum_le_of_abs_lt hz0 hlt2
      have hq : quantum x = max (Int.log 2 |x| - 52) (-1074) := rfl
      rw [hq]
      have h5 : Int.log 2 |x| + 1 - 53 = Int.log 2 |x| - 52 := by ring
      rwa [h5] at this
    exact fl_eq_self_of_multiple (roundHalfEven (x / 2 ^ quantum x)) (quantum x) hqz hz

/-! ### C9 -/

theorem fl_natCast (n : ℕ) (h : (n : ℚ) < 2 ^ 53) : fl (n : ℚ) = n := by
  have := fl_intCast (n : ℤ) (by
    rw [abs_of_nonneg (by positivity)]
    have h53 : ((2 : ℚ) ^ (53 : ℤ)) = (2 ^ 53 : ℚ) := by norm_num
    rw [h53]
    exact_mod_cast h)
  exact_mod_cast this

theorem fixedWidths_eq : fixedWidths = 415 := by
  unfold fixedWidths
  have h1 : fl ((50 : ℚ) + 90) = 140 := by
    have := fl_natCast 140 (by norm_num)
    norm_num at this ⊢
    exact this
  have h2 : fl ((140 : ℚ) + 95) = 235 := by
    have := fl_natCast 235 (by norm_num)
    norm_num at this ⊢
    exact this
  have h3 : fl ((235 : ℚ) + 90) = 325 := by
    have := fl_natCast 325 (by norm_num)
    norm_num at this ⊢
    exact this
  have h4 : fl ((325 : ℚ) + 90) = 415 := by
    have := fl_natCast 415 (by norm_num)
    norm_num at this ⊢
    exact this
  rw [h1, h2, h3, h4]

theorem contentWidth_isDouble (pg : Page) : fl (contentWidth pg) = contentWidth pg := by
  unfold contentWidth
  exact fl_fl _

theorem columns_widths (pg : Page) :
    (columns pg).map (fun c => c.width) = [50, 90, 95, 90, 90, fl (contentWidth pg - 415)] := by
  simp only [columns, List.map_cons, List.map_nil, fixedWidths_eq]

/-- The content width of a page with whole margins stays between the whole numbers that bound
the page width, shifted by the margins. -/
theorem contentWidth_between (pg : Page) (a b : ℤ) (l r : ℕ)
    (hl : pg.marginLeft = l) (hr : pg.marginRight = r)
    (ha : (a : ℚ) ≤ pg.width) (hb : pg.width ≤ b)
    (hlo : -(2 ^ 53 : ℚ) < a - l - r) (hhi : (b : ℚ) < 2 ^ 53) :
    ((a - l - r : ℤ) : ℚ) ≤ contentWidth pg ∧ contentWidth pg ≤ ((b - l - r : ℤ) : ℚ) := by
  have hl0 : (0 : ℚ) ≤ l := Nat.cast_nonneg l
  have hr0 : (0 : ℚ) ≤ r := Nat.cast_nonneg r
  unfold contentWidth
  rw [hl, hr]
  have h1 := fl_between_ints (x := pg.width - l) (a - l) (b - l)
    (by push_cast; linarith) (by push_cast; linarith)
    (by push_cast; linarith) (by push_cast; linarith)
  exact fl_between_ints (x := fl (pg.width - l) - r) (a - l - r) (b - l - r)
    (by push_cast at h1 ⊢; linarith [h1.1]) (by push_cast at h1 ⊢; linarith [h1.2])
    (by push_cast; linarith) (by push_cast; linarith)

theorem a4_width_between : ((595 : ℤ) : ℚ) ≤ a4Margin40.width ∧ a4Margin40.width ≤ ((596 : ℤ) : ℚ) :=
  fl_between_ints (x := 595.28) 595 596 (by norm_num) (by norm_num) (by norm_num) (by norm_num)

theorem a5_width_between : ((419 : ℤ) : ℚ) ≤ a5Margin40.width ∧ a5Margin40.width ≤ ((420 : ℤ) : ℚ) :=
  fl_between_ints (x := 419.53) 419 420 (by norm_num) (by norm_num) (by norm_num) (by norm_num)

/-- On a page whose content width is at most 415 the last column is not wider than 0. -/
theorem last_width_nonpos (pg : Page) (h : contentWidth pg ≤ 415) :
    fl (contentWidth pg - 415) ≤ 0 ∧ ¬ (∀ c ∈ columns pg, 0 < c.width) := by
  have hle : fl (contentWidth pg - 415) ≤ 0 :=
    fl_le_of_le 0 (quantum (contentWidth pg - 415)) le_rfl (by simp) (by linarith)
  refine ⟨hle, ?_⟩
  intro hall
  have hw : ∀ w ∈ (columns pg).map (fun c => c.width), (0 : ℚ) < w := by
    intro w hw
    obtain ⟨c, hc, rfl⟩ := List.mem_map.mp hw
    exact hall c hc
  rw [columns_widths] at hw
  have := hw (fl (contentWidth pg - 415)) (by simp)
  exact absurd this (not_lt.mpr hle)

/-- C9 as stated fails: on an A5 page with margin 40 the content width computed by the code is
at most 340, so the last column gets a width of at most -75, which is not positive. -/
theorem c9_narrow_page_counterexample :
    contentWidth a5Margin40 ≤ 340 ∧
    (columns a5Margin40).map (fun c => c.width)
      = [50, 90, 95, 90, 90, fl (contentWidth a5Margin40 - 415)] ∧
    fl (contentWidth a5Margin40 - 415) ≤ -75 ∧
    ¬ (∀ c ∈ columns a5Margin40, 0 < c.width) := by
  have hcw := contentWidth_between a5Margin40 419 420 40 40 (by norm_num [a5Margin40])
    (by norm_num [a5Margin40]) a5_width_between.1 a5_width_between.2 (by norm_num) (by norm_num)
  have hcw1 : (339 : ℚ) ≤ contentWidth a5Margin40 := by
    have := hcw.1
    norm_num at this
    exact this
  have hcw2 : contentWidth a5Margin40 ≤ 340 := by
    have := hcw.2
    norm_num at this
    exact this
  have hlast := fl_between_ints (x := contentWidth a5Margin40 - 415) (-76) (-75)
    (by push_cast; linarith) (by push_cast; linarith) (by norm_num) (by norm_num)
  refine ⟨hcw2, columns_widths a5Margin40, ?_, (last_width_nonpos a5Margin40 (by linarith)).2⟩
  have := hlast.2
  push_cast at this
  exact this

/-- C9, amended: for every page geometry whose content width, computed in doubles as on line 5,
is above 415 and below `2 ^ 53`, the subtraction that gives the last column its width is exact,
so the six widths are `50, 90, 95, 90, 90` and `contentWidth - 415`, they sum exactly to the
content width, as rationals and also when added in doubles, and every width is positive; when
moreover the left margin is a whole number of points, the `x` reached after the last column is
the double `startX + contentWidth`, the right end of the header rule. -/
theorem c9_column_widths (pg : Page) (hlo : 415 < contentWidth pg)
    (hhi : contentWidth pg < 2 ^ 53) :
    (columns pg).map (fun c => c.width) = [50, 90, 95, 90, 90, contentWidth pg - 415] ∧
    ((columns pg).map (fun c => c.width)).sum = contentWidth pg ∧
    widthSum pg = contentWidth pg ∧
    (∀ c ∈ columns pg, 0 < c.width) ∧
    (∀ n : ℕ, pg.marginLeft = n → (n : ℚ) + 415 < 2 ^ 53 → rightEdge pg = ruleEnd pg) := by
  have h53 : ((2 : ℚ) ^ (53 : ℤ)) = (2 ^ 53 : ℚ) := by norm_num
  have hexact : fl (contentWidth pg - 415) = contentWidth pg - 415 := by
    have := fl_sub_nat_exact (contentWidth_isDouble pg) 415 (by push_cast; exact hlo)
      (by rw [h53]; exact hhi)
    push_cast at this
    exact this
  have hlist : (columns pg).map (fun c => c.width)
      = [50, 90, 95, 90, 90, contentWidth pg - 415] := by
    rw [columns_widths, hexact]
  refine ⟨hlist, ?_, ?_, ?_, ?_⟩
  · rw [hlist]
    simp only [List.sum_cons, List.sum_nil]
    ring
  · have hnat : ∀ k : ℕ, (k : ℚ) ≤ 415 → fl (k : ℚ) = k := by
      intro k hk
      exact fl_natCast k (by linarith)
    have h1 : fl ((0 : ℚ) + 50) = 50 := by
      have := hnat 50 (by norm_num)
      norm_num at this ⊢
      exact this
    have h2 : fl ((50 : ℚ) + 90) = 140 := by
      have := hnat 140 (by norm_num)
      norm_num at this ⊢
      exact this
    have h3 : fl ((140 : ℚ) + 95) = 235 := by
      have := hnat 235 (by norm_num)
      norm_num at this ⊢
      exact this
    have h4 : fl ((235 : ℚ) + 90) = 325 := by
      have := hnat 325 (by norm_num)
      norm_num at this ⊢
      exact this
    have h5 : fl ((325 : ℚ) + 90) = 415 := by
      have := hnat 415 (by norm_num)
      norm_num at this ⊢
      exact this
    unfold widthSum
    simp only [columns, List.foldl_cons, List.foldl_nil, fixedWidths_eq, hexact,
      h1, h2, h3, h4, h5]
    rw [show (415 : ℚ) + (contentWidth pg - 415) = contentWidth pg by ring]
    exact contentWidth_isDouble pg
  · intro c hc
    have hw : c.width ∈ (columns pg).map (fun c => c.width) := List.mem_map.mpr ⟨c, hc, rfl⟩
    rw [hlist] at hw
    simp only [List.mem_cons, List.mem_singleton, List.not_mem_nil, or_false] at hw
    rcases hw with h | h | h | h | h | h <;> rw [h] <;> linarith
  · intro n hn hbound
    have hn0 : (0 : ℚ) ≤ n := Nat.cast_nonneg n
    have hstep : ∀ k : ℕ, (k : ℚ) ≤ 415 → fl ((n : ℚ) + k) = (n : ℚ) + k := by
      intro k hk
      have := fl_natCast (n + k) (by push_cast; linarith)
      push_cast at this
      exact this
    have h1 : fl ((n : ℚ) + 50) = (n : ℚ) + 50 := by
      have := hstep 50 (by norm_num)
      norm_num at this ⊢
      exact this
    have h2 : fl ((n : ℚ) + 50 + 90) = (n : ℚ) + 140 := by
      have := hstep 140 (by norm_num)
      norm_num at this ⊢
      rw [show (n : ℚ) + 50 + 90 = n + 140 by ring]
      exact this
    have h3 : fl ((n : ℚ) + 140 + 95) = (n : ℚ) + 235 := by
      have := hstep 235 (by norm_num)
      norm_num at this ⊢
      rw [show (n : ℚ) + 140 + 95 = n + 235 by ring]
      exact this
    have h4 : fl ((n : ℚ) + 235 + 90) = (n : ℚ) + 325 := by
      have := hstep 325 (by norm_num)
      norm_num at this ⊢
      rw [show (n : ℚ) + 235 + 90 = n + 325 by ring]
      exact this
    have h5 : fl ((n : ℚ) + 325 + 90) = (n : ℚ) + 415 := by
      have := hstep 415 (by norm_num)
      norm_num at this ⊢
      rw [show (n : ℚ) + 325 + 90 = n + 415 by ring]
      exact this
    unfold rightEdge ruleEnd
    simp only [columns, List.foldl_cons, List.foldl_nil, fixedWidths_eq, hexact, hn,
      h1, h2, h3, h4, h5]
    congr 1
    ring

/-- Witness of C9 (amended): A4 with margin 40, the page of the repository's documents, has a
content width between 515 and 516, so its six widths are positive, sum to the content width and
end at `startX + contentWidth`. -/
theorem c9_column_widths_witness :
    415 < contentWidth a4Margin40 ∧ contentWidth a4Margin40 < 2 ^ 53 ∧
    ((columns a4Margin40).map (fun c => c.width)).sum = contentWidth a4Margin40 ∧
    widthSum a4Margin40 = contentWidth a4Margin40 ∧
    (∀ c ∈ columns a4Margin40, 0 < c.width) ∧
    rightEdge a4Margin40 = ruleEnd a4Margin40 := by
  have hcw := contentWidth_between a4Margin40 595 596 40 40 (by norm_num [a4Margin40])
    (by norm_num [a4Margin40]) a4_width_between.1 a4_width_between.2 (by norm_num) (by norm_num)
  have hlo : 415 < contentWidth a4Margin40 := by
    have := hcw.1
    norm_num at this
    linarith
  have hhi : contentWidth a4Margin40 < 2 ^ 53 := by
    have := hcw.2
    norm_num at this
    linarith
  have h := c9_column_widths a4Margin40 hlo hhi
  exact ⟨hlo, hhi, h.2.1, h.2.2.1, h.2.2.2.1,
    h.2.2.2.2 40 (by norm_num [a4Margin40]) (by norm_num)⟩

/-! ### Pagination -/

theorem loopStep_ops {α : Type} (pg : Page) (c : Cursor α) (r : α) :
    (loopStep pg c r).ops = c.ops ++ stepOps pg c r := by
  unfold loopStep stepOps drawRow drawHeader
  by_cases h : c.y + rowHeight > bottomY pg
  · have hy : pg.marginTop + (rowHeight - 6) + 6 = pg.marginTop + rowHeight := by ring
    simp only [h, if_true, List.append_assoc, List.singleton_append, hy]
    rfl
  · simp only [h, if_false]

theorem renderCursor_snoc {α : Type} (pg : Page) (docY : ℚ) (pre : List α) (r : α) :
    renderCursor pg docY (pre ++ [r]) = loopStep pg (renderCursor pg docY pre) r := by
  unfold renderCursor
  rw [List.foldl_append]
  rfl

/-- An invariant of the drawn operations that every turn of the loop keeps holds at the end. -/
theorem foldl_loopStep_invariant {α : Type} (pg : Page) (Inv : List (DrawOp α) → Prop)
    (hstep : ∀ (c : Cursor α) (r : α), Inv c.ops → Inv (c.ops ++ stepOps pg c r)) :
    ∀ (schedule : List α) (c : Cursor α), Inv c.ops →
      Inv (schedule.foldl (loopStep pg) c).ops := by
  intro schedule
  induction schedule with
  | nil => intro c hc; exact hc
  | cons r rs ih =>
    intro c hc
    rw [List.foldl_cons]
    apply ih
    rw [loopStep_ops]
    exact hstep c r hc

theorem foldl_loopStep_rows {α : Type} (pg : Page) :
    ∀ (schedule : List α) (c : Cursor α),
      (schedule.foldl (loopStep pg) c).ops.filterMap DrawOp.rowOf
        = c.ops.filterMap DrawOp.rowOf ++ schedule := by
  intro schedule
  induction schedule with
  | nil => intro c; simp
  | cons r rs ih =>
    intro c
    rw [List.foldl_cons, ih, loopStep_ops, List.filterMap_append]
    have : (stepOps pg c r).filterMap DrawOp.rowOf = [r] := by
      unfold stepOps
      split_ifs <;> simp [DrawOp.rowOf]
    rw [this, List.append_assoc]
    rfl

theorem foldl_loopStep_extends {α : Type} (pg : Page) :
    ∀ (schedule : List α) (c : Cursor α),
      ∃ ext, (schedule.foldl (loopStep pg) c).ops = c.ops ++ ext ∧
        ∀ op ∈ ext, DrawOp.isHeaderBlock op = false := by
  intro schedule
  induction schedule with
  | nil => intro c; exact ⟨[], by simp, by simp⟩
  | cons r rs ih =>
    intro c
    rw [List.foldl_cons]
    obtain ⟨ext, hext, hno⟩ := ih (loopStep pg c r)
    refine ⟨stepOps pg c r ++ ext, ?_, ?_⟩
    · rw [hext, loopStep_ops, List.append_assoc]
    · intro op hop
      rw [List.mem_append] at hop
      rcases hop with hop | hop
      · unfold stepOps at hop
        split_ifs at hop <;> simp at hop
        · rcases hop with rfl | rfl | rfl <;> rfl
        · subst hop; rfl
      · exact hno op hop

theorem headerFollowsAddPage_step {α : Type} (pg : Page) (c : Cursor α) (r : α)
    (h : HeaderFollowsAddPage pg c.ops) : HeaderFollowsAddPage pg (c.ops ++ stepOps pg c r) := by
  intro before after heq
  rw [List.append_eq_append_iff] at heq
  rcases heq with ⟨a, _, ha⟩ | ⟨a, hc, ha⟩
  · unfold stepOps at ha
    split_ifs at ha
    · rcases a with _ | ⟨a1, _ | ⟨a2, _ | ⟨a3, a4⟩⟩⟩
      · simp only [List.nil_append, List.cons.injEq, true_and] at ha
        exact ⟨c.page + 1, r, [], ha.symm⟩
      · simp at ha
      · simp at ha
      · simp at ha
    · rcases a with _ | ⟨a1, a2⟩
      · simp at ha
      · simp at ha
  · rcases a with _ | ⟨a1, a2⟩
    · simp only [List.nil_append] at ha
      unfold stepOps at ha
      split_ifs at ha
      · simp only [List.cons.injEq, true_and] at ha
        exact ⟨c.page + 1, r, [], ha⟩
      · simp at ha
    · simp only [List.cons_append, List.cons.injEq] at ha
      obtain ⟨ha1, ha2⟩ := ha
      subst ha1
      obtain ⟨p, r2, rest, hrest⟩ := h before a2 hc
      refine ⟨p, r2, rest ++ stepOps pg c r, ?_⟩
      rw [ha2, hrest]
      rfl

theorem loopStep_cursor {α : Type} (pg : Page) (c : Cursor α) (r : α) :
    (c.y + rowHeight > bottomY pg →
      (loopStep pg c r).page = c.page + 1 ∧
      (loopStep pg c r).y = pg.marginTop + rowHeight + rowHeight) ∧
    (¬ c.y + rowHeight > bottomY pg →
      (loopStep pg c r).page = c.page ∧ (loopStep pg c r).y = c.y + rowHeight) := by
  unfold loopStep drawRow drawHeader
  constructor
  · intro h
    simp only [h, if_true]
    exact ⟨trivial, by ring⟩
  · intro h
    simp only [h, if_false]
    exact ⟨trivial, trivial⟩

/-! ### C10 -/

/-- C10: on a page that can hold the column header row plus one data row
(`top + rowHeight + rowHeight <= bottomY`), for every installment sequence:
every data row is drawn at a cursor `y` with `y + rowHeight <= bottomY`; for each row, a new page
is started exactly when the cursor plus one row height exceeds `bottomY`, and then the column
header is drawn at the top margin of the new page and the row under it, otherwise the row is
drawn at the cursor on the current page; every `addPage` is directly followed by the column
header and a data row; the rows drawn are the input in order, once each; and the header block is
drawn once, first, on page 0. -/
theorem c10_pagination {α : Type} (pg : Page) (docY : ℚ) (schedule : List α)
    (hfit : pg.marginTop + rowHeight + rowHeight ≤ bottomY pg) :
    (∀ (p : Nat) (y : ℚ) (r : α), DrawOp.row p y r ∈ buildSchedulePdf pg docY schedule →
      y + rowHeight ≤ bottomY pg) ∧
    (∀ (pre : List α) (r : α) (post : List α), schedule = pre ++ r :: post →
      ((renderCursor pg docY pre).y + rowHeight > bottomY pg →
        buildSchedulePdf pg docY (pre ++ [r]) = buildSchedulePdf pg docY pre ++
          [DrawOp.addPage, DrawOp.columnHeader ((renderCursor pg docY pre).page + 1) pg.marginTop,
            DrawOp.row ((renderCursor pg docY pre).page + 1) (pg.marginTop + rowHeight) r] ∧
        (renderCursor pg docY (pre ++ [r])).page = (renderCursor pg docY pre).page + 1 ∧
        (renderCursor pg docY (pre ++ [r])).y = pg.marginTop + rowHeight + rowHeight) ∧
      (¬ (renderCursor pg docY pre).y + rowHeight > bottomY pg →
        buildSchedulePdf pg docY (pre ++ [r]) = buildSchedulePdf pg docY pre ++
          [DrawOp.row (renderCursor pg docY pre).page (renderCursor pg docY pre).y r] ∧
        (renderCursor pg docY (pre ++ [r])).page = (renderCursor pg docY pre).page ∧
        (renderCursor pg docY (pre ++ [r])).y = (renderCursor pg docY pre).y + rowHeight) ∧
      (∃ later, buildSchedulePdf pg docY schedule
        = buildSchedulePdf pg docY (pre ++ [r]) ++ later)) ∧
    HeaderFollowsAddPage pg (buildSchedulePdf pg docY schedule) ∧
    (buildSchedulePdf pg docY schedule).filterMap DrawOp.rowOf = schedule ∧
    (renderCursor pg docY ([] : List α)).page = 0 ∧
    (renderCursor pg docY ([] : List α)).y = docY + 6 + rowHeight ∧
    (∃ rest, buildSchedulePdf pg docY schedule
        = DrawOp.headerBlock 0 :: DrawOp.columnHeader 0 (docY + 6) :: rest ∧
      ∀ op ∈ rest, DrawOp.isHeaderBlock op = false) := by
  have hinit : (initialCursor docY : Cursor α).ops
      = [DrawOp.headerBlock 0, DrawOp.columnHeader 0 (docY + 6)] := rfl
  refine ⟨?_, ?_, ?_, ?_, rfl, ?_, ?_⟩
  · -- every row fits above the bottom boundary
    have key := foldl_loopStep_invariant pg
      (fun ops => ∀ (p : Nat) (y : ℚ) (r : α), DrawOp.row p y r ∈ ops →
        y + rowHeight ≤ bottomY pg)
      (by
        intro c r hc p y r2 hmem
        rw [List.mem_append] at hmem
        rcases hmem with hmem | hmem
        · exact hc p y r2 hmem
        · unfold stepOps at hmem
          split_ifs at hmem with hlt
          · simp at hmem
            rw [hmem.2.1]; exact hfit
          · simp at hmem
            rw [hmem.2.1]; exact not_lt.mp hlt)
      schedule (initialCursor docY)
      (by
        intro p y r hmem
        rw [hinit] at hmem
        simp at hmem)
    exact key
  · intro pre r post hsplit
    have hops : buildSchedulePdf pg docY (pre ++ [r])
        = buildSchedulePdf pg docY pre ++ stepOps pg (renderCursor pg docY pre) r := by
      unfold buildSchedulePdf
      rw [renderCursor_snoc, loopStep_ops]
    have hcur := loopStep_cursor pg (renderCursor pg docY pre) r
    refine ⟨?_, ?_, ?_⟩
    · intro hlt
      rw [renderCursor_snoc]
      refine ⟨?_, hcur.1 hlt⟩
      rw [hops]
      unfold stepOps
      rw [if_pos hlt]
    · intro hlt
      rw [renderCursor_snoc]
      refine ⟨?_, hcur.2 hlt⟩
      rw [hops]
      unfold stepOps
      rw [if_neg hlt]
    · obtain ⟨ext, hext, _⟩ := foldl_loopStep_extends pg post (renderCursor pg docY (pre ++ [r]))
      refine ⟨ext, ?_⟩
      unfold buildSchedulePdf
      rw [← hext, hsplit]
      unfold renderCursor
      rw [← List.foldl_append, List.append_assoc]
      rfl
  · exact foldl_loopStep_invariant pg (HeaderFollowsAddPage pg)
      (fun c r hc => headerFollowsAddPage_step pg c r hc) schedule (initialCursor docY)
      (by
        intro before after heq
        rw [hinit] at heq
        rcases before with _ | ⟨b1, _ | ⟨b2, _ | ⟨b3, b4⟩⟩⟩ <;> simp at heq)
  · unfold buildSchedulePdf renderCursor
    rw [foldl_loopStep_rows, hinit]
    rfl
  · show (drawHeader { page := 0, y := docY + 6, ops := [DrawOp.headerBlock 0] } : Cursor α).y
      = docY + 6 + rowHeight
    unfold drawHeader
    simp only
    ring
  · obtain ⟨ext, hext, hno⟩ := foldl_loopStep_extends pg schedule (initialCursor docY)
    refine ⟨ext, ?_, hno⟩
    unfold buildSchedulePdf renderCursor
    rw [hext, hinit]
    rfl

/-- Witness of C10: on a page 120 points high with margin 40 (the header plus one row just fit)
two installments go one per added page, each under a redrawn column header. -/
theorem c10_pagination_witness :
    tinyPage.marginTop + rowHeight + rowHeight ≤ bottomY tinyPage ∧
    buildSchedulePdf tinyPage 40 [1, 2] =
      [DrawOp.headerBlock 0, DrawOp.columnHeader 0 46,
        DrawOp.addPage, DrawOp.columnHeader 1 40, DrawOp.row 1 58 (1 : Nat),
        DrawOp.addPage, DrawOp.columnHeader 2 40, DrawOp.row 2 58 (2 : Nat)] ∧
    (∀ (p : Nat) (y : ℚ) (r : Nat), DrawOp.row p y r ∈ buildSchedulePdf tinyPage 40 [1, 2] →
      y + rowHeight ≤ bottomY tinyPage) :=
  ⟨by norm_num [tinyPage, rowHeight, bottomY],
   by norm_num [buildSchedulePdf, renderCursor, initialCursor, loopStep, drawHeader, drawRow,
     tinyPage, rowHeight, bottomY],
   (c10_pagination tinyPage 40 [1, 2] (by norm_num [tinyPage, rowHeight, bottomY])).1⟩

/-! ### C11 -/

theorem mem_statusesOfLoan {schedules : List Schedule} {loanId : Int} {st : String} :
    st ∈ statusesOfLoan schedules loanId ↔
      ∃ s ∈ schedules, s.loanId = loanId ∧ s.status = st := by
  unfold statusesOfLoan
  rw [List.mem_map]
  constructor
  · rintro ⟨s, hs, rfl⟩
    rw [List.mem_filter] at hs
    exact ⟨s, hs.1, by simpa using hs.2, rfl⟩
  · rintro ⟨s, hs, hl, rfl⟩
    exact ⟨s, List.mem_filter.mpr ⟨hs, by simp [hl]⟩, rfl⟩

theorem mem_updateSchedule_of_mem {schedules : List Schedule} (id : Int) (data : ToggleData)
    {t : Schedule} (ht : t ∈ schedules) :
    (if t.id = id then { t with status := data.status, paidAt := data.paidAt } else t)
      ∈ updateSchedule schedules id data := by
  unfold updateSchedule
  rw [List.mem_map]
  exact ⟨t, ht, rfl⟩

/-- The recomputed loan status when some installment of the loan is not `PAGADO`: `ATRASADO`
when an installment of the loan is `ATRASADO`, `ACTIVO` otherwise. -/
theorem recompute_with_unpaid_row (schedules : List Schedule) (loanId : Int)
    (hrow : ∃ s ∈ schedules, s.loanId = loanId ∧ s.status ≠ "PAGADO") :
    recomputeLoanStatus (groupByStatus (statusesOfLoan schedules loanId)) ≠ "PAGADO" ∧
    ((∃ s ∈ schedules, s.loanId = loanId ∧ s.status = "ATRASADO") →
      recomputeLoanStatus (groupByStatus (statusesOfLoan schedules loanId)) = "ATRASADO") ∧
    ((¬ ∃ s ∈ schedules, s.loanId = loanId ∧ s.status = "ATRASADO") →
      recomputeLoanStatus (groupByStatus (statusesOfLoan schedules loanId)) = "ACTIVO") := by
  have hne : ¬ (statusesOfLoan schedules loanId).count "PAGADO"
      = (statusesOfLoan schedules loanId).length := by
    intro hall
    obtain ⟨s, hs, hl, hst⟩ := hrow
    have := List.count_eq_length.mp hall s.status (mem_statusesOfLoan.mpr ⟨s, hs, hl, rfl⟩)
    exact hst this.symm
  have hpos : 0 < (statusesOfLoan schedules loanId).count "ATRASADO" ↔
      ∃ s ∈ schedules, s.loanId = loanId ∧ s.status = "ATRASADO" := by
    rw [List.count_pos_iff, mem_statusesOfLoan]
  rw [recomputeLoanStatus_grouping (groupByStatus_isGrouping _), if_neg hne]
  refine ⟨?_, ?_, ?_⟩
  · split_ifs <;> decide
  · intro h; rw [if_pos (hpos.mpr h)]
  · intro h; rw [if_neg (fun hc => h (hpos.mp hc))]

/-- C11: an accepted toggle with `paid = false` on an installment of the loan is answered `200`
and leaves the installment `PENDIENTE` with `paidAt` null; the recomputed loan status is never
`PAGADO`, whatever it was before: it is `ATRASADO` when some installment of the loan is
`ATRASADO` in the resulting store (equivalently, some installment other than the unmarked one
was `ATRASADO` before) and `ACTIVO` otherwise. -/
theorem c11_unmark_leaves_paid_state (nowDate : Int) (req : ToggleRequest) (db : Db)
    (hmem : ∃ s ∈ db.schedules, s.id = req.scheduleId)
    (hown : ∀ s ∈ db.schedules, s.id = req.scheduleId → s.loanId = req.loanId)
    (hloan : ∃ l ∈ db.loans, l.id = req.loanId)
    (hpaid : req.paid = JsValue.bool false) :
    (toggleInstallment nowDate req db).2 = Response.ok 200 ∧
    (toggleInstallment nowDate req db).1.schedules =
      updateSchedule db.schedules req.scheduleId { status := "PENDIENTE", paidAt := none } ∧
    (∃ s ∈ (toggleInstallment nowDate req db).1.schedules, s.id = req.scheduleId) ∧
    (∀ s ∈ (toggleInstallment nowDate req db).1.schedules, s.id = req.scheduleId →
      s.status = "PENDIENTE" ∧ s.paidAt = none) ∧
    (∃ l ∈ (toggleInstallment nowDate req db).1.loans, l.id = req.loanId) ∧
    (∀ l ∈ (toggleInstallment nowDate req db).1.loans, l.id = req.loanId →
      l.status ≠ "PAGADO" ∧
      ((∃ s ∈ (toggleInstallment nowDate req db).1.schedules,
          s.loanId = req.loanId ∧ s.status = "ATRASADO") → l.status = "ATRASADO") ∧
      ((¬ ∃ s ∈ (toggleInstallment nowDate req db).1.schedules,
          s.loanId = req.loanId ∧ s.status = "ATRASADO") → l.status = "ACTIVO")) ∧
    ((∃ s ∈ (toggleInstallment nowDate req db).1.schedules,
        s.loanId = req.loanId ∧ s.status = "ATRASADO") ↔
      ∃ s ∈ db.schedules,
        s.loanId = req.loanId ∧ s.id ≠ req.scheduleId ∧ s.status = "ATRASADO") := by
  have hvalid : isBooleanValue req.paid = true := by rw [hpaid]; rfl
  have hdata : toggleData nowDate req.paid req.paidAt
      = { status := "PENDIENTE", paidAt := none } := by
    unfold toggleData
    rw [hpaid]
    rfl
  have hrun : toggleInstallment nowDate req db =
      ({ db with
          schedules := updateSchedule db.schedules req.scheduleId
            { status := "PENDIENTE", paidAt := none }
          loans := updateLoanStatus db.loans req.loanId
            (recomputeLoanStatus (groupByStatus (statusesOfLoan
              (updateSchedule db.schedules req.scheduleId
                { status := "PENDIENTE", paidAt := none }) req.loanId))) },
        Response.ok 200) := by
    unfold toggleInstallment handleValidation
    rw [if_pos hvalid, toggleHandler_commit nowDate req db hmem hown hloan, hdata]
  -- the unmarked row, as it stands in the updated table
  obtain ⟨t, ht, htid⟩ := hmem
  have htrow : ({ t with status := "PENDIENTE", paidAt := none } : Schedule)
      ∈ updateSchedule db.schedules req.scheduleId { status := "PENDIENTE", paidAt := none } := by
    have := mem_updateSchedule_of_mem req.scheduleId
      ({ status := "PENDIENTE", paidAt := none } : ToggleData) ht
    rwa [if_pos htid] at this
  have hrec := recompute_with_unpaid_row
    (updateSchedule db.schedules req.scheduleId { status := "PENDIENTE", paidAt := none })
    req.loanId
    ⟨_, htrow, hown t ht htid,
      fun h => absurd (show "PENDIENTE" = "PAGADO" from h) (by decide)⟩
  rw [hrun]
  refine ⟨rfl, rfl, ⟨_, htrow, htid⟩, ?_, updateLoanStatus_exists _ hloan, ?_, ?_⟩
  · intro s hs hid
    rcases mem_updateSchedule hs with ⟨_, h1, h2⟩ | ⟨_, hne⟩
    · exact ⟨h1, h2⟩
    · exact absurd hid hne
  · intro l hl hid
    have hst := updateLoanStatus_status hl hid
    rw [hst]
    exact hrec
  · constructor
    · rintro ⟨s, hs, hl, hst⟩
      rcases mem_updateSchedule hs with ⟨_, h1, _⟩ | ⟨hm, hne⟩
      · rw [hst] at h1
        exact absurd h1 (by decide)
      · exact ⟨s, hm, hl, hne, hst⟩
    · rintro ⟨s, hs, hl, hne, hst⟩
      have := mem_updateSchedule_of_mem req.scheduleId
        ({ status := "PENDIENTE", paidAt := none } : ToggleData) hs
      rw [if_neg hne] at this
      exact ⟨s, this, hl, hst⟩

/-- Witness of C11: in the fully repaid sample store, unmarking installment 2 of loan 10 leaves
the installment `PENDIENTE` without `paidAt` and takes the loan from `PAGADO` to `ACTIVO`. -/
theorem c11_unmark_leaves_paid_state_witness :
    (toggleInstallment 3500000000 sampleUnmark samplePaidDb).1.loans
      = [{ id := 10, clientId := 1, status := "ACTIVO" }] ∧
    (toggleInstallment 3500000000 sampleUnmark samplePaidDb).1.schedules
      = [ { id := 1, loanId := 10, installmentNumber := 1, dueDate := 882000000,
            status := "PAGADO", paidAt := some 795600000 },
          { id := 2, loanId := 10, installmentNumber := 2, dueDate := 3474000000,
            status := "PENDIENTE", paidAt := none } ] ∧
    (∀ l ∈ (toggleInstallment 3500000000 sampleUnmark samplePaidDb).1.loans,
      l.id = sampleUnmark.loanId →
      l.status ≠ "PAGADO" ∧
      ((∃ s ∈ (toggleInstallment 3500000000 sampleUnmark samplePaidDb).1.schedules,
          s.loanId = sampleUnmark.loanId ∧ s.status = "ATRASADO") → l.status = "ATRASADO") ∧
      ((¬ ∃ s ∈ (toggleInstallment 3500000000 sampleUnmark samplePaidDb).1.schedules,
          s.loanId = sampleUnmark.loanId ∧ s.status = "ATRASADO") → l.status = "ACTIVO")) :=
  ⟨by decide, by decide,
    (c11_unmark_leaves_paid_state 3500000000 sampleUnmark samplePaidDb
      (by decide) (by decide) (by decide) rfl).2.2.2.2.2.1⟩

end LoanEngine
